import Mathlib

namespace DeepResearch

/-- Python-like JSON-ish values: the dynamic data that flows through the
context/knowledge coordination layer. Dicts are insertion-ordered
association lists, as CPython dicts are. -/
inductive Val where
  | none
  | bool (b : Bool)
  | num (q : ℚ)
  | str (s : String)
  | list (xs : List Val)
  | dict (fs : List (String × Val))
deriving Repr

mutual

def Val.decEq : (a b : Val) → Decidable (a = b)
  | .none, .none => isTrue rfl
  | .bool a, .bool b =>
    if h : a = b then isTrue (by rw [h])
    else isFalse (by intro he; cases he; exact h rfl)
  | .num a, .num b =>
    if h : a = b then isTrue (by rw [h])
    else isFalse (by intro he; cases he; exact h rfl)
  | .str a, .str b =>
    if h : a = b then isTrue (by rw [h])
    else isFalse (by intro he; cases he; exact h rfl)
  | .list xs, .list ys =>
    match Val.decEqList xs ys with
    | isTrue h => isTrue (by rw [h])
    | isFalse h => isFalse (by intro he; cases he; exact h rfl)
  | .dict fs, .dict gs =>
    match Val.decEqFields fs gs with
    | isTrue h => isTrue (by rw [h])
    | isFalse h => isFalse (by intro he; cases he; exact h rfl)
  | .none, .bool _ | .none, .num _ | .none, .str _ | .none, .list _ | .none, .dict _
  | .bool _, .none | .bool _, .num _ | .bool _, .str _ | .bool _, .list _
  | .bool _, .dict _
  | .num _, .none | .num _, .bool _ | .num _, .str _ | .num _, .list _ | .num _, .dict _
  | .str _, .none | .str _, .bool _ | .str _, .num _ | .str _, .list _ | .str _, .dict _
  | .list _, .none | .list _, .bool _ | .list _, .num _ | .list _, .str _
  | .list _, .dict _
  | .dict _, .none | .dict _, .bool _ | .dict _, .num _ | .dict _, .str _
  | .dict _, .list _ => isFalse (by intro he; exact Val.noConfusion he)

def Val.decEqList : (xs ys : List Val) → Decidable (xs = ys)
  | [], [] => isTrue rfl
  | [], _ :: _ => isFalse (by intro h; exact List.noConfusion h)
  | _ :: _, [] => isFalse (by intro h; exact List.noConfusion h)
  | x :: xs, y :: ys =>
    match Val.decEq x y with
    | isTrue h1 =>
      match Val.decEqList xs ys with
      | isTrue h2 => isTrue (by rw [h1, h2])
      | isFalse h2 => isFalse (by intro he; cases he; exact h2 rfl)
    | isFalse h1 => isFalse (by intro he; cases he; exact h1 rfl)

def Val.decEqFields : (fs gs : List (String × Val)) → Decidable (fs = gs)
  | [], [] => isTrue rfl
  | [], _ :: _ => isFalse (by intro h; exact List.noConfusion h)
  | _ :: _, [] => isFalse (by intro h; exact List.noConfusion h)
  | (k1, v1) :: fs, (k2, v2) :: gs =>
    if hk : k1 = k2 then
      match Val.decEq v1 v2 with
      | isTrue hv =>
        match Val.decEqFields fs gs with
        | isTrue ht => isTrue (by rw [hk, hv, ht])
        | isFalse ht => isFalse (by intro he; cases he; exact ht rfl)
      | isFalse hv => isFalse (by intro he; cases he; exact hv rfl)
    else isFalse (by intro he; cases he; exact hk rfl)

end

instance : DecidableEq Val := Val.decEq

example : Val.num 1 ≠ Val.str "x" := by decide

/-- Characters the code classifies as Chinese: "一" <= c <= "鿿". -/
def isChineseChar (c : Char) : Bool :=
  0x4e00 ≤ c.val ∧ c.val ≤ 0x9fff

/-- `ContextManager.estimate_tokens`: `chinese_chars // 2 + other_chars // 4`. -/
def estimate_tokens (text : String) : ℕ :=
  let chinese_chars := (text.data.filter isChineseChar).length
  let other_chars := text.data.length - chinese_chars
  chinese_chars / 2 + other_chars / 4

example : estimate_tokens "中aa" = 0 := by decide

/-- Python `int()` applied to a float/rational: truncation toward zero. -/
def pyInt (q : ℚ) : ℤ :=
  if 0 ≤ q then ⌊q⌋ else -⌊-q⌋

/-- Python `round()`: round half to even (banker's rounding). Used only to
state the spec's `round(len*ratio)` formula. -/
def pyRound (q : ℚ) : ℤ :=
  let f := ⌊q⌋
  let d := q - f
  if d < 1 / 2 then f
  else if 1 / 2 < d then f + 1
  else if 2 ∣ f then f else f + 1

/-- Python string slice `s[:n]`, including the negative-index case
(`s[:-k]` drops the last `k` characters). -/
def pyStrTake (s : String) (n : ℤ) : String :=
  if 0 ≤ n then ⟨s.data.take n.toNat⟩
  else ⟨s.data.take (s.data.length - min s.data.length (-n).toNat)⟩

/-- Python dict lookup `d.get(k)` on an insertion-ordered dict. -/
def getKey : List (String × Val) → String → Option Val
  | [], _ => Option.none
  | (k2, v) :: fs, k => if k2 = k then some v else getKey fs k

/-- Python dict assignment `d[k] = v`: replaces in place, else appends. -/
def setKey : List (String × Val) → String → Val → List (String × Val)
  | [], k, v => [(k, v)]
  | (k2, v2) :: fs, k, v =>
    if k2 = k then (k, v) :: fs else (k2, v2) :: setKey fs k v

/-- Python `d.update(patch)`: keys of `patch` applied in order. -/
def dictUpdate (d patch : List (String × Val)) : List (String × Val) :=
  patch.foldl (fun acc kv => setKey acc kv.1 kv.2) d

/-- Python truthiness of a value. -/
def Val.truthy : Val → Bool
  | .none => false
  | .bool b => b
  | .num q => decide (q ≠ 0)
  | .str s => decide (s ≠ "")
  | .list xs => !xs.isEmpty
  | .dict fs => !fs.isEmpty

/-! ### Message router (`ContextOrchestrator.send_message` /
`_get_messages_for_agent`) -/

structure AgentMessage where
  from_agent : String
  to_agent : String
  message_type : String
  content : List (String × Val)
  priority : ℤ
  timestamp : String
deriving DecidableEq, Repr

/-- `ContextOrchestrator.send_message`: insert before the first queued
message of strictly lower priority, else append (stable for equal
priorities). -/
def send_message (queue : List AgentMessage) (m : AgentMessage) :
    List AgentMessage :=
  match queue with
  | [] => [m]
  | e :: rest =>
    if e.priority < m.priority then m :: e :: rest
    else e :: send_message rest m

def addressed_to (m : AgentMessage) (agent : String) : Bool :=
  m.to_agent == agent || m.to_agent == "broadcast"

/-- `ContextOrchestrator._get_messages_for_agent`: one pass over the queue;
messages addressed to the agent or to `"broadcast"` are returned (the code
returns their `to_dict()` serializations; we return the messages), all
others become the new queue. -/
def get_messages_for_agent :
    List AgentMessage → String → List AgentMessage × List AgentMessage
  | [], _ => ([], [])
  | m :: rest, agent =>
    let p := get_messages_for_agent rest agent
    if addressed_to m agent then (m :: p.1, p.2) else (p.1, m :: p.2)

/-! ### Compression engine (`ContextManager._compress_dict` /
`_compress_list`) -/

/-- The value CPython's sort key lambda hands to the comparison: a Python
number (`int`/`float`/`bool` — a bool IS a number there, `True` counts as 1
and `False` as 0), a string, or some other object. -/
inductive SortKey where
  | num (q : ℚ)
  | str (s : String)
  | other (v : Val)

/-- The sort key of one list element:
`x.get(field, 0.5) if isinstance(x, dict) else 0`. Numbers stay numbers
(booleans read as the ints 1 and 0, as in Python), strings stay strings,
anything else is `other`. -/
def pySortKey (field : String) (x : Val) : SortKey :=
  match x with
  | .dict fs =>
    match getKey fs field with
    | some (.num q) => .num q
    | some (.bool b) => .num (if b then 1 else 0)
    | some (.str s) => .str s
    | some w => .other w
    | Option.none => .num (1 / 2)
  | _ => .num 0

/-- Python `<` on two sort keys, where CPython defines it: numbers compare
numerically and strings lexicographically by code point (Lean's `String`
order). On every other pair CPython's `sorted` raises a `TypeError` the
moment it compares them (`_compress_context_for_agent` catches it and
returns the context uncompressed); the model returns `false` there, and
the C7 theorem restricts itself to `sortable` lists, on which such a pair
is never compared. -/
def sortKeyLt : SortKey → SortKey → Bool
  | .num a, .num b => decide (a < b)
  | .str a, .str b => decide (a < b)
  | _, _ => false

/-- Element comparison used for `verified_facts` / `insights` /
`key_facts` lists: Python `<` on the `confidence` sort keys. -/
def confLt (a b : Val) : Bool :=
  sortKeyLt (pySortKey "confidence" a) (pySortKey "confidence" b)

/-- Element comparison used for `source_references` lists: Python `<` on
the `relevance_score` sort keys. -/
def relLt (a b : Val) : Bool :=
  sortKeyLt (pySortKey "relevance_score" a) (pySortKey "relevance_score" b)

/-- The element's sort key is a Python number (covers absent keys, which
default to the float 0.5, and non-dict elements, whose key is the int 0). -/
def keyNumeric (field : String) (x : Val) : Bool :=
  match pySortKey field x with
  | .num _ => true
  | _ => false

/-- The element's sort key is a Python string. -/
def keyString (field : String) (x : Val) : Bool :=
  match pySortKey field x with
  | .str _ => true
  | _ => false

/-- Lists CPython sorts without raising: every sort key numeric, or every
sort key a string. On such a list every comparison the sort performs is
defined, and `sortKeyLt` agrees with CPython's `<` on each of them. -/
def sortable (field : String) (data : List Val) : Bool :=
  data.all (fun x => keyNumeric field x) || data.all (fun x => keyString field x)

/-- Stable insert for descending sort: skip over strictly greater keys. -/
def insertDesc (lt : Val → Val → Bool) (x : Val) : List Val → List Val
  | [] => [x]
  | y :: ys => if lt x y then y :: insertDesc lt x ys else x :: y :: ys

/-- CPython's `sorted(data, key=..., reverse=True)` is a stable descending
sort; modelled by a stable insertion sort over the strict comparison `lt`
on the elements' keys, which computes the same list as any stable sort
for every total key order. -/
def sortByDesc (lt : Val → Val → Bool) : List Val → List Val
  | [] => []
  | x :: xs => insertDesc lt x (sortByDesc lt xs)

/-- `ContextManager._compress_list`. -/
def _compress_list (data : List Val) (r : ℚ) (key_name : String) : List Val :=
  match data with
  | [] => []
  | _ =>
    let keep_count := max 1 (pyInt ((data.length : ℚ) * r)).toNat
    if key_name = "verified_facts" ∨ key_name = "insights" ∨
        key_name = "key_facts" then
      (sortByDesc confLt data).take keep_count
    else if key_name = "source_references" then
      (sortByDesc relLt data).take keep_count
    else
      data.take keep_count

mutual

/-- `ContextManager._compress_dict`: per-entry compression, in dict order.
(The `context_type` argument of the source is only ever logged and is
omitted.) -/
def _compress_dict (data : List (String × Val)) (r : ℚ)
    (preserve_keys : List String) : List (String × Val) :=
  match data with
  | [] => []
  | (k, v) :: rest =>
    (k, compressEntry v r preserve_keys k) :: _compress_dict rest r preserve_keys

/-- The body of `_compress_dict`'s loop for a single `key, value` pair. -/
def compressEntry (v : Val) (r : ℚ) (preserve_keys : List String)
    (k : String) : Val :=
  if k ∈ preserve_keys then v
  else
    match v with
    | .list xs => .list (_compress_list xs r k)
    | .dict fs => .dict (_compress_dict fs r preserve_keys)
    | .str s =>
      if 100 < s.length then
        let max_length : ℤ := pyInt ((s.length : ℚ) * r)
        if max_length < (s.length : ℤ) then .str (pyStrTake s max_length ++ "...")
        else .str s
      else .str s
    | v => v

end

example :
    _compress_dict [("a", .list [.num 1, .num 2, .num 3])] (9 / 10) [] =
      [("a", .list [.num 1, .num 2])] := by
  norm_num [_compress_dict, compressEntry, _compress_list, pyInt]
  decide

/-! ### Paths into nested values (used to state the preservation claim) -/

inductive PathElem where
  | key (k : String)
  | idx (n : ℕ)
deriving DecidableEq, Repr

/-- Follow a path of dict keys and list indices into a value. -/
def getPath : Val → List PathElem → Option Val
  | v, [] => some v
  | .dict fs, .key k :: p =>
    match getKey fs k with
    | some v => getPath v p
    | Option.none => Option.none
  | .list xs, .idx n :: p =>
    match xs[n]? with
    | some v => getPath v p
    | Option.none => Option.none
  | _, _ => Option.none

/-- A path made only of dict keys (never descending through a list). -/
def keysOnly (p : List PathElem) : Prop :=
  ∀ e ∈ p, ∃ s, e = PathElem.key s

/-! ### Spec-side formulas (stated from the spec's words, for the
refinement claims C5 and C7; the code-side definitions above are the
authority) -/

/-- Modelled from the spec: "count characters classified as CJK at 0.5 cost
unit each, all other characters at 0.25 cost unit each, rounded down". -/
def spec_estimate_tokens (text : String) : ℤ :=
  let cjk := ((text.data.filter isChineseChar).length : ℚ)
  let other := ((text.data.length : ℚ)) - cjk
  ⌊cjk / 2 + other / 4⌋

/-- Modelled from the spec: the compressed-list length
`max(1, round(len*ratio))` claimed by C7. -/
def spec_compressed_len (n : ℕ) (r : ℚ) : ℤ :=
  max 1 (pyRound ((n : ℚ) * r))

/-! ### Python exceptions

Operations that can raise are modelled in `Except PyErr`. The model is
transactional: when CPython raises after an in-place mutation, the partial
state is dropped here; every such point is noted at its definition. -/

inductive PyErr where
  | keyErr (k : String)
  | typeErr
  | attrErr
  | valueErr
deriving DecidableEq, Repr

/-! ### `CoreContext` (context_manager.py)

Fields hold arbitrary runtime values, because `update_core_context` assigns
whatever the patch carries. `shadows` records instance attributes created
when a patch key names one of the class's methods (`to_dict`, `from_dict`,
`get_hash`): CPython's `hasattr` test on line 152 is true for those names,
and `setattr` then shadows the method on the instance. CPython's `hasattr`
is also true for dunder attributes (`__init__`, `__eq__`, ...); patch keys
starting with `__` are outside the modelled universe and are excluded by
hypothesis where the distinction matters. -/

structure CoreContext where
  task_id : Val
  query : Val
  research_plan : Val
  verified_facts : Val
  current_phase : Val
  key_entities : Val
  constraints : Val
  review_feedback : Val
  shadows : List (String × Val)
deriving DecidableEq, Repr

/-- `CoreContext(task_id=..., query=...)` with the dataclass defaults. -/
def CoreContext.init (task_id : ℤ) (query : String) : CoreContext :=
  { task_id := .num task_id, query := .str query, research_plan := .list [],
    verified_facts := .list [], current_phase := .str "pending",
    key_entities := .list [], constraints := .list [],
    review_feedback := .dict [], shadows := [] }

def core_field_names : List String :=
  ["task_id", "query", "research_plan", "verified_facts", "current_phase",
   "key_entities", "constraints", "review_feedback"]

def core_method_names : List String := ["to_dict", "from_dict", "get_hash"]

def CoreContext.getField (c : CoreContext) (k : String) : Option Val :=
  if k = "task_id" then some c.task_id
  else if k = "query" then some c.query
  else if k = "research_plan" then some c.research_plan
  else if k = "verified_facts" then some c.verified_facts
  else if k = "current_phase" then some c.current_phase
  else if k = "key_entities" then some c.key_entities
  else if k = "constraints" then some c.constraints
  else if k = "review_feedback" then some c.review_feedback
  else Option.none

/-- `setattr` on a `CoreContext` instance: a field name updates the field, a
method name shadows the method, anything else is never reached (guarded by
`hasattr`). -/
def CoreContext.setAttr (c : CoreContext) (k : String) (v : Val) :
    CoreContext :=
  if k = "task_id" then { c with task_id := v }
  else if k = "query" then { c with query := v }
  else if k = "research_plan" then { c with research_plan := v }
  else if k = "verified_facts" then { c with verified_facts := v }
  else if k = "current_phase" then { c with current_phase := v }
  else if k = "key_entities" then { c with key_entities := v }
  else if k = "constraints" then { c with constraints := v }
  else if k = "review_feedback" then { c with review_feedback := v }
  else if k ∈ core_method_names then { c with shadows := setKey c.shadows k v }
  else c

/-- `hasattr(self.core_context, key)` over the modelled attribute universe. -/
def core_hasattr (k : String) : Bool :=
  k ∈ core_field_names ∨ k ∈ core_method_names

/-- `CoreContext.to_dict`. Raises `TypeError` when the method has been
shadowed by a non-callable instance attribute. -/
def CoreContext.to_dict (c : CoreContext) : Except PyErr (List (String × Val)) :=
  if (getKey c.shadows "to_dict").isSome then .error .typeErr
  else
    .ok [("task_id", c.task_id), ("query", c.query),
      ("research_plan", c.research_plan), ("verified_facts", c.verified_facts),
      ("current_phase", c.current_phase), ("key_entities", c.key_entities),
      ("constraints", c.constraints), ("review_feedback", c.review_feedback)]

/-- `CoreContext.get_hash`: `md5(json.dumps(to_dict(), sort_keys=True))`.
The hash is modelled by the serialized state itself: md5 and `json.dumps`
are functions, so equal states give equal hashes, and no theorem below
draws a conclusion from hash *inequality* (where an md5 collision could
make CPython disagree with the model). -/
def CoreContext.get_hash (c : CoreContext) : Except PyErr (List (String × Val)) :=
  if (getKey c.shadows "get_hash").isSome then .error .typeErr
  else c.to_dict

/-- A context-history entry (`ContextManager.update_core_context`); the
wall-clock `timestamp` field is not modelled. -/
structure HistEntry where
  entry_type : String
  old_hash : List (String × Val)
  new_hash : List (String × Val)
  changes : List (String × Val)
deriving DecidableEq, Repr

/-- `ContextManager.update_core_context`: hash the old state, apply every
patch entry whose key passes `hasattr`, and append a history entry only
when the hash changed. -/
def update_core_context (c : CoreContext) (history : List HistEntry)
    (updates : Val) : Except PyErr (CoreContext × List HistEntry) :=
  match c.get_hash with
  | .error e => .error e
  | .ok old_hash =>
    match c.to_dict with
    | .error e => .error e
    | .ok old_state =>
      -- `for key, value in updates.items()` requires a dict
      match updates with
      | .dict patch =>
        let c2 := patch.foldl
          (fun acc kv => if core_hasattr kv.1 then acc.setAttr kv.1 kv.2 else acc) c
        match c2.get_hash with
        | .error e => .error e
        | .ok new_hash =>
          if old_hash ≠ new_hash then
            let entry : HistEntry :=
              { entry_type := "core_update", old_hash := old_hash,
                new_hash := new_hash,
                changes := patch.filter (fun kv => (getKey old_state kv.1).isSome) }
            .ok (c2, history ++ [entry])
          else
            .ok (c2, history)
      | _ => .error PyErr.attrErr

/-- `CoreContext.from_dict`: `cls(**data)`; requires the two
non-defaulted fields and accepts only field names as keys. -/
def CoreContext.from_dict (fs : List (String × Val)) :
    Except PyErr CoreContext :=
  if fs.all (fun kv => kv.1 ∈ core_field_names) ∧
      (getKey fs "task_id").isSome ∧ (getKey fs "query").isSome then
    let c : CoreContext :=
      { task_id := (getKey fs "task_id").getD .none,
        query := (getKey fs "query").getD .none,
        research_plan := (getKey fs "research_plan").getD (.list []),
        verified_facts := (getKey fs "verified_facts").getD (.list []),
        current_phase := (getKey fs "current_phase").getD (.str "pending"),
        key_entities := (getKey fs "key_entities").getD (.list []),
        constraints := (getKey fs "constraints").getD (.list []),
        review_feedback := (getKey fs "review_feedback").getD (.dict []),
        shadows := [] }
    .ok c
  else .error .typeErr

/-! ### `ExtendedContext` (context_manager.py) -/

structure ExtendedContext where
  agent_type : Val
  working_data : Val
  intermediate_results : Val
  source_references : Val
  notes : Val
  shadows : List (String × Val)
deriving DecidableEq, Repr

def ExtendedContext.init (agent_type : String) : ExtendedContext :=
  { agent_type := .str agent_type, working_data := .dict [],
    intermediate_results := .list [], source_references := .list [],
    notes := .list [], shadows := [] }

def ext_field_names : List String :=
  ["agent_type", "working_data", "intermediate_results", "source_references",
   "notes"]

def ext_method_names : List String := ["to_dict", "from_dict"]

def ExtendedContext.getField (ec : ExtendedContext) (k : String) : Val :=
  if k = "agent_type" then ec.agent_type
  else if k = "working_data" then ec.working_data
  else if k = "intermediate_results" then ec.intermediate_results
  else if k = "source_references" then ec.source_references
  else if k = "notes" then ec.notes
  else .none

def ExtendedContext.setField (ec : ExtendedContext) (k : String) (v : Val) :
    ExtendedContext :=
  if k = "agent_type" then { ec with agent_type := v }
  else if k = "working_data" then { ec with working_data := v }
  else if k = "intermediate_results" then { ec with intermediate_results := v }
  else if k = "source_references" then { ec with source_references := v }
  else if k = "notes" then { ec with notes := v }
  else ec

/-- One iteration of `update_extended_context`'s loop: merge by the runtime
type of the current attribute value (list extends, dict updates, anything
else is overwritten). A patch key naming a method shadows it; on a method
name `getattr` yields the bound method (or an earlier shadow), and only a
shadow can be a list or dict. -/
def ext_update_step (ec : ExtendedContext) (k : String) (v : Val) :
    ExtendedContext :=
  if k ∈ ext_field_names then
    match ec.getField k, v with
    | .list xs, .list ys => ec.setField k (.list (xs ++ ys))
    | .dict fs, .dict gs => ec.setField k (.dict (dictUpdate fs gs))
    | _, _ => ec.setField k v
  else if k ∈ ext_method_names then
    match getKey ec.shadows k, v with
    | some (.list xs), .list ys =>
      { ec with shadows := setKey ec.shadows k (.list (xs ++ ys)) }
    | some (.dict fs), .dict gs =>
      { ec with shadows := setKey ec.shadows k (.dict (dictUpdate fs gs)) }
    | _, _ => { ec with shadows := setKey ec.shadows k v }
  else ec

/-- `ContextManager.update_extended_context` applied to one agent's record
(`for key, value in updates.items()` requires a dict). -/
def update_extended_context (ec : ExtendedContext) (updates : Val) :
    Except PyErr ExtendedContext :=
  match updates with
  | .dict patch => .ok (patch.foldl (fun acc kv => ext_update_step acc kv.1 kv.2) ec)
  | _ => .error .attrErr

def ExtendedContext.to_dict (ec : ExtendedContext) :
    Except PyErr (List (String × Val)) :=
  if (getKey ec.shadows "to_dict").isSome then .error .typeErr
  else
    .ok [("agent_type", ec.agent_type), ("working_data", ec.working_data),
      ("intermediate_results", ec.intermediate_results),
      ("source_references", ec.source_references), ("notes", ec.notes)]

def ExtendedContext.from_dict (fs : List (String × Val)) :
    Except PyErr ExtendedContext :=
  if fs.all (fun kv => kv.1 ∈ ext_field_names) ∧
      (getKey fs "agent_type").isSome then
    let ec : ExtendedContext :=
      { agent_type := (getKey fs "agent_type").getD .none,
        working_data := (getKey fs "working_data").getD (.dict []),
        intermediate_results := (getKey fs "intermediate_results").getD (.list []),
        source_references := (getKey fs "source_references").getD (.list []),
        notes := (getKey fs "notes").getD (.list []),
        shadows := [] }
    .ok ec
  else .error .typeErr

/-! ### Knowledge graph (knowledge_graph.py)

Enum members (`NodeType`, `VerificationStatus`) are str-valued enums and are
modelled by their value strings. The content/type/agent inverted indices and
the query cache are not part of the model: no claim observes them, and their
only effect on the modelled operations is that `_update_content_index`
tokenizes `node.content`, which raises `AttributeError` for a non-string
content — that check is kept. Python `bool` is a subtype of `int`; `Val.bool`
arithmetic is modelled as a `TypeError`, which is reachable only through
`update_node` patches that no theorem below exercises. -/

def node_type_values : List String :=
  ["fact", "entity", "relation", "insight", "claim"]

def status_values : List String :=
  ["unverified", "verified", "conflicting", "deprecated"]

/-- `EnumClass(v)`: member lookup by value; an unhashable argument raises
`TypeError`, a hashable non-member raises `ValueError`. -/
def pyEnumParse (v : Val) (vals : List String) : Except PyErr Val :=
  match v with
  | .str s => if s ∈ vals then .ok (.str s) else .error .valueErr
  | .list _ => .error .typeErr
  | .dict _ => .error .typeErr
  | _ => .error .valueErr

/-- `.value` on a modelled enum member. A plain Python string patched into
an enum-typed field would raise `AttributeError` in CPython; the model
conflates it with the member of the same value (the divergence is reachable
only through `update_node` patches that no theorem below exercises). -/
def enumValue (v : Val) (vals : List String) : Except PyErr String :=
  match v with
  | .str s => if s ∈ vals then .ok s else .error .attrErr
  | _ => .error .attrErr

structure KnowledgeNode where
  id : Val
  node_type : Val
  content : Val
  source_ids : Val
  created_by_agent : Val
  confidence_score : Val
  verification_status : Val
  verification_count : Val
  related_node_ids : Val
  metadata : Val
  created_at : Val
  updated_at : Val
  version : Val
  shadows : List (String × Val)
deriving DecidableEq, Repr

def node_field_names : List String :=
  ["id", "node_type", "content", "source_ids", "created_by_agent",
   "confidence_score", "verification_status", "verification_count",
   "related_node_ids", "metadata", "created_at", "updated_at", "version"]

def node_method_names : List String := ["to_dict", "from_dict"]

def KnowledgeNode.setAttr (n : KnowledgeNode) (k : String) (v : Val) :
    KnowledgeNode :=
  if k = "id" then { n with id := v }
  else if k = "node_type" then { n with node_type := v }
  else if k = "content" then { n with content := v }
  else if k = "source_ids" then { n with source_ids := v }
  else if k = "created_by_agent" then { n with created_by_agent := v }
  else if k = "confidence_score" then { n with confidence_score := v }
  else if k = "verification_status" then { n with verification_status := v }
  else if k = "verification_count" then { n with verification_count := v }
  else if k = "related_node_ids" then { n with related_node_ids := v }
  else if k = "metadata" then { n with metadata := v }
  else if k = "created_at" then { n with created_at := v }
  else if k = "updated_at" then { n with updated_at := v }
  else if k = "version" then { n with version := v }
  else if k ∈ node_method_names then { n with shadows := setKey n.shadows k v }
  else n

def node_hasattr (k : String) : Bool :=
  k ∈ node_field_names ∨ k ∈ node_method_names

def KnowledgeNode.to_dict (n : KnowledgeNode) :
    Except PyErr (List (String × Val)) :=
  if (getKey n.shadows "to_dict").isSome then .error .typeErr
  else
    match enumValue n.node_type node_type_values with
    | .error e => .error e
    | .ok tv =>
      match enumValue n.verification_status status_values with
      | .error e => .error e
      | .ok sv =>
        .ok [("id", n.id), ("node_type", .str tv), ("content", n.content),
          ("source_ids", n.source_ids), ("created_by_agent", n.created_by_agent),
          ("confidence_score", n.confidence_score), ("verification_status", .str sv),
          ("verification_count", n.verification_count),
          ("related_node_ids", n.related_node_ids), ("metadata", n.metadata),
          ("created_at", n.created_at), ("updated_at", n.updated_at),
          ("version", n.version)]

/-- `KnowledgeNode.from_dict`: re-parse the two enum fields, then
`cls(**data)`. `now` stands in for `datetime.utcnow().isoformat()` in the
dataclass timestamp defaults. -/
def KnowledgeNode.from_dict (fs : List (String × Val)) (now : String) :
    Except PyErr KnowledgeNode :=
  match (match getKey fs "node_type" with
         | some v => pyEnumParse v node_type_values
         | Option.none => .error (PyErr.keyErr "node_type")),
        (match getKey fs "verification_status" with
         | some v => pyEnumParse v status_values
         | Option.none => .error (PyErr.keyErr "verification_status")) with
  | .error e, _ => .error e
  | .ok _, .error e => .error e
  | .ok nt, .ok vs =>
  if fs.all (fun kv => kv.1 ∈ node_field_names) ∧ (getKey fs "id").isSome ∧
      (getKey fs "content").isSome then
    let n : KnowledgeNode :=
      { id := (getKey fs "id").getD .none,
        node_type := nt,
        content := (getKey fs "content").getD .none,
        source_ids := (getKey fs "source_ids").getD (.list []),
        created_by_agent := (getKey fs "created_by_agent").getD (.str ""),
        confidence_score := (getKey fs "confidence_score").getD (.num (1 / 2)),
        verification_status := vs,
        verification_count := (getKey fs "verification_count").getD (.num 0),
        related_node_ids := (getKey fs "related_node_ids").getD (.list []),
        metadata := (getKey fs "metadata").getD (.dict []),
        created_at := (getKey fs "created_at").getD (.str now),
        updated_at := (getKey fs "updated_at").getD (.str now),
        version := (getKey fs "version").getD (.num 1),
        shadows := [] }
    .ok n
  else .error .typeErr

structure KnowledgeGraphManager where
  task_id : ℤ
  nodes : List (String × KnowledgeNode)
  node_counter : ℤ
deriving DecidableEq, Repr

def KnowledgeGraphManager.init (task_id : ℤ) : KnowledgeGraphManager :=
  { task_id := task_id, nodes := [], node_counter := 0 }

/-- `self.nodes[node_id] = node` on the insertion-ordered node dict. -/
def setNode (nodes : List (String × KnowledgeNode)) (k : String)
    (n : KnowledgeNode) : List (String × KnowledgeNode) :=
  match nodes with
  | [] => [(k, n)]
  | (k2, n2) :: rest =>
    if k2 = k then (k, n) :: rest else (k2, n2) :: setNode rest k n

def getNode (nodes : List (String × KnowledgeNode)) (k : String) :
    Option KnowledgeNode :=
  match nodes with
  | [] => Option.none
  | (k2, n) :: rest => if k2 = k then some n else getNode rest k

/-- `KnowledgeGraphManager.add_node`. Optional arguments default to `None`
and are replaced with fresh empty containers via `x or []`. The node is
inserted and `_update_indices` then tokenizes the content, raising
`AttributeError` when the content is not a string (the model is
transactional, see `PyErr`). -/
def add_node (kg : KnowledgeGraphManager) (node_type content source_ids
    created_by_agent confidence_score related_node_ids metadata : Val)
    (now : String) : Except PyErr (KnowledgeGraphManager × KnowledgeNode) :=
  let counter2 := kg.node_counter + 1
  let node_id := "node_" ++ toString kg.task_id ++ "_" ++ toString counter2
  let node : KnowledgeNode :=
    { id := .str node_id, node_type := node_type, content := content,
      source_ids := if source_ids.truthy then source_ids else .list [],
      created_by_agent := created_by_agent,
      confidence_score := confidence_score,
      verification_status := .str "unverified",
      verification_count := .num 0,
      related_node_ids :=
        if related_node_ids.truthy then related_node_ids else .list [],
      metadata := if metadata.truthy then metadata else .dict [],
      created_at := .str now, updated_at := .str now, version := .num 1,
      shadows := [] }
  -- `_tokenize_content(node.content)` calls `content.lower()`
  match content with
  | .str _ =>
    let kg2 : KnowledgeGraphManager :=
      { kg with nodes := setNode kg.nodes node_id node,
                node_counter := counter2 }
    .ok (kg2, node)
  | _ => .error PyErr.attrErr

/-- `KnowledgeGraphManager.update_node` (`None` result when the node id is
unknown). Values are applied through the same `hasattr`/`setattr` guard as
`update_core_context`; the final `version += 1` raises on a non-numeric
version. -/
def update_node (kg : KnowledgeGraphManager) (node_id : String)
    (updates : List (String × Val)) (now : String) :
    Except PyErr (KnowledgeGraphManager × Option KnowledgeNode) :=
  match getNode kg.nodes node_id with
  | Option.none => .ok (kg, Option.none)
  | some n =>
    let n := updates.foldl
      (fun acc kv => if node_hasattr kv.1 then acc.setAttr kv.1 kv.2 else acc) n
    let n := { n with updated_at := .str now }
    match n.version with
    | .num v =>
      let n := { n with version := .num (v + 1) }
      .ok ({ kg with nodes := setNode kg.nodes node_id n }, some n)
    | _ => .error PyErr.typeErr

/-- `KnowledgeGraphManager.verify_node`: increment the count; from the
second verification on, set the status to verified and boost the confidence
by 0.2, capped at 1.0. The source mutates the node field by field
(`verification_count += 1`, then conditionally status and confidence, then
`updated_at`); each successful path is modelled as one combined record
update, and the two `TypeError` points (`+= 1` on a non-numeric count,
`+ 0.2` on a non-numeric confidence) as errors. In the failing-confidence
case CPython has already set count and status before raising; the model is
transactional (see `PyErr`), and that partial state also satisfies every
invariant stated below. -/
def verify_node (kg : KnowledgeGraphManager) (node_id : String)
    (_verifier_agent : String) (now : String) :
    Except PyErr (KnowledgeGraphManager × Bool) :=
  match getNode kg.nodes node_id with
  | Option.none => .ok (kg, false)
  | some n =>
    match n.verification_count with
    | .num cnt =>
      if 2 ≤ cnt + 1 then
        match n.confidence_score with
        | .num conf =>
          let n2 : KnowledgeNode :=
            { n with verification_count := .num (cnt + 1),
                     verification_status := .str "verified",
                     confidence_score := .num (min 1 (conf + 1 / 5)),
                     updated_at := .str now }
          .ok ({ kg with nodes := setNode kg.nodes node_id n2 }, true)
        | _ => .error PyErr.typeErr
      else
        let n2 : KnowledgeNode :=
          { n with verification_count := .num (cnt + 1),
                   updated_at := .str now }
        .ok ({ kg with nodes := setNode kg.nodes node_id n2 }, true)
    | _ => .error PyErr.typeErr

/-- Substring test for Python's `x in s` on strings. -/
def strContains (s sub : String) : Bool :=
  s.data.tails.any (fun t => sub.data.isPrefixOf t)

/-- `KnowledgeGraphManager.mark_conflicting`: set the status to
conflicting, then append the other id to `related_node_ids` unless already
present. The source mutates the status first and then runs the membership
test / append; each successful path is modelled as one combined record
update. For a non-list `related_node_ids` (reachable only via `update_node`
patches): on a dict, `in` tests key membership and `.append` raises
`AttributeError`; on a str, `in` is a substring test and `.append` raises;
otherwise `in` itself raises `TypeError`. In those raising cases CPython
has already set the status; the model is transactional (see `PyErr`), and
that partial state also satisfies every invariant stated below. -/
def mark_conflicting (kg : KnowledgeGraphManager)
    (node_id conflicting_node_id : String) :
    Except PyErr KnowledgeGraphManager :=
  match getNode kg.nodes node_id with
  | Option.none => .ok kg
  | some n =>
    match n.related_node_ids with
    | .list xs =>
      let n2 : KnowledgeNode :=
        if Val.str conflicting_node_id ∈ xs then
          { n with verification_status := .str "conflicting" }
        else
          { n with verification_status := .str "conflicting",
                   related_node_ids := .list (xs ++ [.str conflicting_node_id]) }
      .ok { kg with nodes := setNode kg.nodes node_id n2 }
    | .dict fs =>
      if (getKey fs conflicting_node_id).isSome then
        let n2 : KnowledgeNode := { n with verification_status := .str "conflicting" }
        .ok { kg with nodes := setNode kg.nodes node_id n2 }
      else .error PyErr.attrErr
    | .str s =>
      if strContains s conflicting_node_id then
        let n2 : KnowledgeNode := { n with verification_status := .str "conflicting" }
        .ok { kg with nodes := setNode kg.nodes node_id n2 }
      else .error PyErr.attrErr
    | _ => .error PyErr.typeErr

/-- `KnowledgeGraphManager.get_verified_facts`: a str-enum member compares
equal to its value string, so the filter keeps exactly the nodes whose
status is (the member with value) `"verified"`. -/
def get_verified_facts (kg : KnowledgeGraphManager) : List KnowledgeNode :=
  (kg.nodes.map Prod.snd).filter
    (fun n => n.verification_status = .str "verified")

/-- Sequential composition of `Except` over a list, as the source's `for`
loops build their results. -/
def mapE {α β : Type} (f : α → Except PyErr β) : List α → Except PyErr (List β)
  | [] => .ok []
  | x :: xs =>
    match f x with
    | .error e => .error e
    | .ok y =>
      match mapE f xs with
      | .error e => .error e
      | .ok ys => .ok (y :: ys)

/-- `KnowledgeGraphManager.to_dict`. -/
def nodeToDictE (kv : String × KnowledgeNode) :
    Except PyErr (String × List (String × Val)) :=
  match kv.2.to_dict with
  | .error e => .error e
  | .ok d => .ok (kv.1, d)

def KnowledgeGraphManager.to_dict (kg : KnowledgeGraphManager) :
    Except PyErr (ℤ × ℤ × List (String × List (String × Val))) :=
  match mapE nodeToDictE kg.nodes with
  | .error e => .error e
  | .ok ns => .ok (kg.task_id, kg.node_counter, ns)

/-- `KnowledgeGraphManager.from_dict`. -/
def nodeFromDictE (now : String) (kv : String × List (String × Val)) :
    Except PyErr (String × KnowledgeNode) :=
  match KnowledgeNode.from_dict kv.2 now with
  | .error e => .error e
  | .ok n => .ok (kv.1, n)

def KnowledgeGraphManager.from_dict
    (d : ℤ × ℤ × List (String × List (String × Val))) (now : String) :
    Except PyErr KnowledgeGraphManager :=
  match mapE (nodeFromDictE now) d.2.2 with
  | .error e => .error e
  | .ok ns => .ok { task_id := d.1, node_counter := d.2.1, nodes := ns }

/-! ### Orchestrator (context_orchestrator.py) -/

/-- `AgentExecutionResult`, with each field at its declared dataclass type. -/
structure AgentExecutionResult where
  agent_type : String
  success : Bool
  output : List (String × Val)
  errors : List Val
  tokens_used : ℤ
  duration_ms : ℤ
  context_changes : List (String × Val)
deriving DecidableEq, Repr

/-- The per-task mutable state owned by a `ContextOrchestrator` together
with its `ContextManager` (`core_context`, `extended_contexts`,
`context_history`, `summary_chain`) and `KnowledgeGraphManager`. -/
structure ContextOrchestrator where
  task_id : ℤ
  query : String
  core_context : CoreContext
  context_history : List HistEntry
  extended_contexts : List (String × ExtendedContext)
  summary_chain : List Val
  knowledge_graph : KnowledgeGraphManager
  message_queue : List AgentMessage
  execution_history : List AgentExecutionResult
  global_errors : List Val
deriving DecidableEq, Repr

def ContextOrchestrator.init (task_id : ℤ) (query : String) :
    ContextOrchestrator :=
  { task_id := task_id, query := query,
    core_context := CoreContext.init task_id query,
    context_history := [], extended_contexts := [], summary_chain := [],
    knowledge_graph := KnowledgeGraphManager.init task_id,
    message_queue := [], execution_history := [], global_errors := [] }

def getExt (l : List (String × ExtendedContext)) (k : String) :
    Option ExtendedContext :=
  match l with
  | [] => Option.none
  | (k2, e) :: rest => if k2 = k then some e else getExt rest k

def setExt (l : List (String × ExtendedContext)) (k : String)
    (e : ExtendedContext) : List (String × ExtendedContext) :=
  match l with
  | [] => [(k, e)]
  | (k2, e2) :: rest =>
    if k2 = k then (k, e) :: rest else (k2, e2) :: setExt rest k e

/-- `ContextManager.update_extended_context` at the manager level:
`get_or_create_extended_context` then the merge loop. (CPython creates the
record even when the later loop raises; the model is transactional.) -/
def cm_update_extended (ecs : List (String × ExtendedContext))
    (agent_type : String) (updates : Val) :
    Except PyErr (List (String × ExtendedContext)) := do
  let cur := (getExt ecs agent_type).getD (ExtendedContext.init agent_type)
  let ec2 ← update_extended_context cur updates
  .ok (setExt ecs agent_type ec2)

/-- `ContextManager.create_snapshot` (wall-clock timestamp not modelled). -/
structure Snapshot where
  snapshot_type : String
  agent_type : Option String
  core_context : List (String × Val)
  extended_contexts : List (String × List (String × Val))
  context_hash : List (String × Val)
  version : ℤ
deriving DecidableEq, Repr

def create_snapshot (o : ContextOrchestrator) (snapshot_type : String)
    (agent_type : Option String) : Except PyErr Snapshot := do
  let core ← o.core_context.to_dict
  let exts ← mapE (fun kv => do
    let d ← kv.2.to_dict
    pure (kv.1, d)) o.extended_contexts
  let h ← o.core_context.get_hash
  let snap : Snapshot :=
    { snapshot_type := snapshot_type, agent_type := agent_type,
      core_context := core, extended_contexts := exts, context_hash := h,
      version := (o.context_history.length : ℤ) + 1 }
  .ok snap

/-- The reviewer branch's list comprehension:
`[issue for issue in issues if issue.get("severity") == "critical"]`. A
non-dict element raises at `.get`. -/
def critical_filter : List Val → Except PyErr (List Val)
  | [] => .ok []
  | issue :: rest =>
    match issue with
    | .dict ifs => do
      let tail ← critical_filter rest
      if getKey ifs "severity" = some (.str "critical") then .ok (issue :: tail)
      else .ok tail
    | _ => .error .attrErr

/-- The same comprehension for a non-list `issues` value: iterating a
string yields 1-character strings and a dict yields its keys, neither of
which has `.get`; numbers and the rest are not iterable. -/
def criticalIssues : Val → Except PyErr (List Val)
  | .list xs => critical_filter xs
  | .str s => if s = "" then .ok [] else .error .attrErr
  | .dict fs => if fs = [] then .ok [] else .error .attrErr
  | _ => .error .typeErr

/-- The `for node_data in result.output["knowledge_nodes"]` loop of
`sync_context_after_agent`: per entry, `NodeType(node_data.get("type",
"fact"))` is evaluated first, then `node_data["content"]` (a `KeyError`
when the key is missing), then the defaulted gets; `related_node_ids` and
`metadata` are not passed and default to `None`. -/
def ingest_nodes (kg : KnowledgeGraphManager) (agent_type : String)
    (now : String) : List Val → Except PyErr KnowledgeGraphManager
  | [] => .ok kg
  | node_data :: rest => do
    let nd ←
      match node_data with
      | .dict fs => Except.ok fs
      | _ => Except.error PyErr.attrErr
    let nt ← pyEnumParse ((getKey nd "type").getD (.str "fact")) node_type_values
    let content ←
      match getKey nd "content" with
      | some c => Except.ok c
      | Option.none => Except.error (PyErr.keyErr "content")
    let sids := (getKey nd "source_ids").getD (.list [])
    let conf := (getKey nd "confidence").getD (.num (1 / 2))
    let r ← add_node kg nt content sids (.str agent_type) conf .none .none now
    ingest_nodes r.1 agent_type now rest

def ingest_knowledge_nodes (kg : KnowledgeGraphManager) (agent_type : String)
    (now : String) (v : Val) : Except PyErr KnowledgeGraphManager :=
  match v with
  | .list xs => ingest_nodes kg agent_type now xs
  | .str s => if s = "" then .ok kg else .error .attrErr
  | .dict fs => if fs = [] then .ok kg else .error .attrErr
  | _ => .error .typeErr

/-- `ContextOrchestrator.sync_context_after_agent`, step for step. -/
def sync_context_after_agent (o : ContextOrchestrator) (agent_type : String)
    (result : AgentExecutionResult) (now : String) :
    Except PyErr ContextOrchestrator := do
  -- 1. record execution history
  let o := { o with execution_history := o.execution_history ++ [result] }
  -- 2. apply declared context changes (`if result.context_changes:`)
  let o ←
    if result.context_changes ≠ [] then do
      let o ←
        match getKey result.context_changes "core" with
        | some v => do
          let r ← update_core_context o.core_context o.context_history v
          pure { o with core_context := r.1, context_history := r.2 }
        | Option.none => pure o
      match getKey result.context_changes "extended" with
      | some v => do
        let ecs ← cm_update_extended o.extended_contexts agent_type v
        pure { o with extended_contexts := ecs }
      | Option.none => pure o
    else pure o
  -- reviewer feedback (`review_data = result.output.get("review") or {}`)
  let o ←
    if agent_type = "reviewer" then do
      let review_raw := (getKey result.output "review").getD .none
      let review_data := if review_raw.truthy then review_raw else .dict []
      if review_data.truthy then do
        let rd ←
          match review_data with
          | .dict fs => Except.ok fs
          | _ => Except.error PyErr.attrErr
        let crit ← criticalIssues ((getKey rd "issues").getD (.list []))
        let feedback : Val := .dict
          [("passed", (getKey result.output "passed").getD .none),
           ("overall_score",
             (getKey rd "overall_score").getD
               ((getKey result.output "score").getD .none)),
           ("critical_issues", .list crit),
           ("suggestions",
             (getKey rd "suggestions").getD
               ((getKey result.output "suggestions").getD (.list [])))]
        let r ← update_core_context o.core_context o.context_history
          (.dict [("review_feedback", feedback)])
        pure { o with core_context := r.1, context_history := r.2 }
      else pure o
    else pure o
  -- 3. ingest knowledge nodes (`if "knowledge_nodes" in result.output:`)
  let o ←
    match getKey result.output "knowledge_nodes" with
    | some v => do
      let kg2 ← ingest_knowledge_nodes o.knowledge_graph agent_type now v
      pure { o with knowledge_graph := kg2 }
    | Option.none => pure o
  -- 4. post-step snapshot and 5. drift comparison (log only)
  let snap ← create_snapshot o "post_agent" (some agent_type)
  let cur ← o.core_context.get_hash
  let _ := decide (snap.context_hash ≠ cur)
  -- 6. accumulate reported errors (`if result.errors:`)
  let o :=
    if result.errors ≠ [] then
      { o with global_errors := o.global_errors ++ result.errors }
    else o
  .ok o

/-- One entry of the persisted `execution_history` list. -/
structure ExecSummary where
  agent_type : String
  success : Bool
  tokens_used : ℤ
  duration_ms : ℤ
  errors : List Val
deriving DecidableEq, Repr

/-- The dict produced by `get_state_for_persistence`, as a record with the
same keys and nesting. -/
structure PersistState where
  task_id : ℤ
  query : String
  core_context : List (String × Val)
  extended_contexts : List (String × List (String × Val))
  knowledge_graph : ℤ × ℤ × List (String × List (String × Val))
  execution_history : List ExecSummary
  summary_chain : List Val
  global_errors : List Val
  timestamp : String
deriving DecidableEq, Repr

/-- `ContextOrchestrator.get_state_for_persistence`. -/
def extToDictE (kv : String × ExtendedContext) :
    Except PyErr (String × List (String × Val)) :=
  match kv.2.to_dict with
  | .error e => .error e
  | .ok d => .ok (kv.1, d)

def get_state_for_persistence (o : ContextOrchestrator) (now : String) :
    Except PyErr PersistState :=
  match o.core_context.to_dict with
  | .error e => .error e
  | .ok core =>
  match mapE extToDictE o.extended_contexts with
  | .error e => .error e
  | .ok exts =>
  match o.knowledge_graph.to_dict with
  | .error e => .error e
  | .ok kg =>
  let st : PersistState :=
    { task_id := o.task_id, query := o.query, core_context := core,
      extended_contexts := exts, knowledge_graph := kg,
      execution_history := o.execution_history.map (fun r =>
        { agent_type := r.agent_type, success := r.success,
          tokens_used := r.tokens_used, duration_ms := r.duration_ms,
          errors := r.errors }),
      summary_chain := o.summary_chain, global_errors := o.global_errors,
      timestamp := now }
  .ok st

/-- `ContextOrchestrator.restore_from_state`: a fresh orchestrator whose
core context, extended contexts, knowledge graph, summary chain and global
errors are rebuilt from the state (`context_history` and
`execution_history` start empty, as in the source). -/
def extFromDictE (kv : String × List (String × Val)) :
    Except PyErr (String × ExtendedContext) :=
  match ExtendedContext.from_dict kv.2 with
  | .error e => .error e
  | .ok e => .ok (kv.1, e)

def restore_from_state (state : PersistState) (now : String) :
    Except PyErr ContextOrchestrator :=
  let o := ContextOrchestrator.init state.task_id state.query
  match CoreContext.from_dict state.core_context with
  | .error e => .error e
  | .ok core =>
  match mapE extFromDictE state.extended_contexts with
  | .error e => .error e
  | .ok exts =>
  match KnowledgeGraphManager.from_dict state.knowledge_graph now with
  | .error e => .error e
  | .ok kg =>
  let o2 : ContextOrchestrator :=
    { o with core_context := core, extended_contexts := exts,
             knowledge_graph := kg, summary_chain := state.summary_chain,
             global_errors := state.global_errors }
  .ok o2

/-! ### Reachability for the knowledge store (claim C3) -/

/-- One successful operation on the knowledge store, exactly the four
operations the claim quantifies over. -/
inductive KGStep : KnowledgeGraphManager → KnowledgeGraphManager → Prop where
  | add {kg kg2 n} (node_type content source_ids created_by confidence
      related metadata : Val) (now : String)
      (h : add_node kg node_type content source_ids created_by confidence
        related metadata now = .ok (kg2, n)) : KGStep kg kg2
  | verify {kg kg2 b} (node_id verifier now : String)
      (h : verify_node kg node_id verifier now = .ok (kg2, b)) : KGStep kg kg2
  | update {kg kg2 res} (node_id : String) (updates : List (String × Val))
      (now : String)
      (h : update_node kg node_id updates now = .ok (kg2, res)) : KGStep kg kg2
  | conflict {kg kg2} (node_id other_id : String)
      (h : mark_conflicting kg node_id other_id = .ok kg2) : KGStep kg kg2

/-- States reachable from a fresh store by the four operations. -/
inductive KGReach : KnowledgeGraphManager → Prop where
  | init (task_id : ℤ) : KGReach (KnowledgeGraphManager.init task_id)
  | step {kg kg2} : KGReach kg → KGStep kg kg2 → KGReach kg2

/-- An `update_node` patch that touches neither verification field. -/
def benign_patch (updates : List (String × Val)) : Prop :=
  ∀ kv ∈ updates,
    kv.1 ≠ "verification_count" ∧ kv.1 ≠ "verification_status"

/-- `KGStep` with `update_node` restricted to patches that do not touch the
verification fields (the restriction the amended claim needs). -/
inductive KGStepSafe : KnowledgeGraphManager → KnowledgeGraphManager → Prop where
  | add {kg kg2 n} (node_type content source_ids created_by confidence
      related metadata : Val) (now : String)
      (h : add_node kg node_type content source_ids created_by confidence
        related metadata now = .ok (kg2, n)) : KGStepSafe kg kg2
  | verify {kg kg2 b} (node_id verifier now : String)
      (h : verify_node kg node_id verifier now = .ok (kg2, b)) :
      KGStepSafe kg kg2
  | update {kg kg2 res} (node_id : String) (updates : List (String × Val))
      (now : String) (hb : benign_patch updates)
      (h : update_node kg node_id updates now = .ok (kg2, res)) :
      KGStepSafe kg kg2
  | conflict {kg kg2} (node_id other_id : String)
      (h : mark_conflicting kg node_id other_id = .ok kg2) : KGStepSafe kg kg2

inductive KGReachSafe : KnowledgeGraphManager → Prop where
  | init (task_id : ℤ) : KGReachSafe (KnowledgeGraphManager.init task_id)
  | step {kg kg2} : KGReachSafe kg → KGStepSafe kg kg2 → KGReachSafe kg2

/-- The claimed invariant: a verification count of at least 2 forces status
`verified`. -/
def count_ge2_implies_verified (kg : KnowledgeGraphManager) : Prop :=
  ∀ p ∈ kg.nodes, ∀ q : ℚ, p.2.verification_count = .num q → 2 ≤ q →
    p.2.verification_status = .str "verified"

/-- The amended invariant: a verification count of at least 2 forces status
`verified` or `conflicting`. -/
def count_ge2_implies_settled (kg : KnowledgeGraphManager) : Prop :=
  ∀ p ∈ kg.nodes, ∀ q : ℚ, p.2.verification_count = .num q → 2 ≤ q →
    p.2.verification_status = .str "verified" ∨
      p.2.verification_status = .str "conflicting"

/-! ### Concrete inputs used by witnesses and counterexamples -/

def nodeDemo1 : KnowledgeNode :=
  { id := .str "node_1_1", node_type := .str "fact",
    content := .str "alpha beta", source_ids := .list [],
    created_by_agent := .str "searcher", confidence_score := .num (1 / 2),
    verification_status := .str "unverified", verification_count := .num 0,
    related_node_ids := .list [], metadata := .dict [],
    created_at := .str "t0", updated_at := .str "t0", version := .num 1,
    shadows := [] }

def kgDemo1 : KnowledgeGraphManager :=
  { task_id := 1, nodes := [("node_1_1", nodeDemo1)], node_counter := 1 }

def nodeDemo2 : KnowledgeNode :=
  { nodeDemo1 with verification_count := .num 1, updated_at := .str "t1" }

def kgDemo2 : KnowledgeGraphManager :=
  { kgDemo1 with nodes := [("node_1_1", nodeDemo2)] }

def nodeDemo3 : KnowledgeNode :=
  { nodeDemo2 with
    verification_count := .num 2,
    verification_status := .str "verified",
    confidence_score := .num (7 / 10), updated_at := .str "t2" }

def kgDemo3 : KnowledgeGraphManager :=
  { kgDemo1 with nodes := [("node_1_1", nodeDemo3)] }

def nodeDemo4 : KnowledgeNode :=
  { nodeDemo3 with
    verification_status := .str "conflicting",
    related_node_ids := .list [.str "node_1_99"] }

def kgDemo4 : KnowledgeGraphManager :=
  { kgDemo1 with nodes := [("node_1_1", nodeDemo4)] }

/-- A broadcast message, for the message-router claim. -/
def msgDemo : AgentMessage :=
  { from_agent := "planner", to_agent := "broadcast",
    message_type := "notification", content := [], priority := 0,
    timestamp := "t0" }

/-- A direct message addressed to the writer. -/
def msgDemoW : AgentMessage :=
  { from_agent := "planner", to_agent := "writer",
    message_type := "request", content := [], priority := 0,
    timestamp := "t1" }

def orchDemo : ContextOrchestrator := ContextOrchestrator.init 1 "q"

/-- A worker result whose knowledge-node entry lacks the `content` key —
the malformed-result case named by claim C4. -/
def badResult : AgentExecutionResult :=
  { agent_type := "writer", success := true,
    output := [("knowledge_nodes", .list [.dict []])], errors := [],
    tokens_used := 0, duration_ms := 0, context_changes := [] }

def coreDemo : CoreContext := CoreContext.init 1 "q"

def orchDemo5 : ContextOrchestrator := ContextOrchestrator.init 5 "q"

/-- The serialized form of `orchDemo5`. -/
def stDemo : PersistState :=
  { task_id := 5, query := "q",
    core_context := [("task_id", .num ((5 : ℤ) : ℚ)), ("query", .str "q"),
      ("research_plan", .list []), ("verified_facts", .list []),
      ("current_phase", .str "pending"), ("key_entities", .list []),
      ("constraints", .list []), ("review_feedback", .dict [])],
    extended_contexts := [], knowledge_graph := (5, 0, []),
    execution_history := [], summary_chain := [], global_errors := [],
    timestamp := "t0" }

def hashDemo : List (String × Val) :=
  [("task_id", .num ((5 : ℤ) : ℚ)), ("query", .str "q"),
   ("research_plan", .list []), ("verified_facts", .list []),
   ("current_phase", .str "pending"), ("key_entities", .list []),
   ("constraints", .list []), ("review_feedback", .dict [])]

/-- A bundle whose non-preserved list field contains two dict elements
each carrying a preserve-set field. -/
def bundleDemo : List (String × Val) :=
  [("a", .list [.dict [("insights", .str "x")],
    .dict [("insights", .str "y")]])]

/-! ## Theorems -/

/-! ### Message router (claim C1) -/

theorem get_messages_eq_filter (q : List AgentMessage) (a : String) :
    get_messages_for_agent q a =
      (q.filter (fun m => addressed_to m a),
       q.filter (fun m => !(addressed_to m a))) := by
  induction q with
  | nil => rfl
  | cons m rest ih =>
    simp only [get_messages_for_agent, ih, List.filter_cons]
    cases h : addressed_to m a <;> simp [h]

/-- Claim C1 (as stated, refuted): draining the queue for one recipient is
claimed to leave a broadcast message available to every other recipient's
later poll. Concretely, a single broadcast message is returned to the first
poller, the remaining queue is empty, and a later poll by another
recipient returns nothing. -/
theorem C1_counterexample :
    (get_messages_for_agent [msgDemo] "searcher").1 = [msgDemo] ∧
    (get_messages_for_agent [msgDemo] "searcher").2 = [] ∧
    (get_messages_for_agent
      (get_messages_for_agent [msgDemo] "searcher").2 "writer").1 = [] := by
  decide

/-- Claim C1 (amended): `_get_messages_for_agent(recipient)` removes and
returns exactly the messages addressed to that recipient or to broadcast,
in queue order, leaving exactly the others; broadcast messages are
therefore globally removed by the first poll, and any message a later poll
by another recipient returns was addressed specifically to that
recipient. -/
theorem C1_drain_amended :
    (∀ (q : List AgentMessage) (a : String),
      get_messages_for_agent q a =
        (q.filter (fun m => addressed_to m a),
         q.filter (fun m => !(addressed_to m a)))) ∧
    (∀ (q : List AgentMessage) (a b : String) (m : AgentMessage),
      m ∈ (get_messages_for_agent (get_messages_for_agent q a).2 b).1 →
      m.to_agent = b) := by
  refine ⟨get_messages_eq_filter, ?_⟩
  intro q a b m hm
  rw [get_messages_eq_filter, get_messages_eq_filter] at hm
  simp only [List.mem_filter] at hm
  obtain ⟨⟨-, hnota⟩, hb⟩ := hm
  simp only [addressed_to, Bool.or_eq_true, beq_iff_eq, Bool.not_eq_true',
    Bool.or_eq_false_iff, beq_eq_false_iff_ne] at hnota hb
  rcases hb with hb | hbc
  · exact hb
  · exact absurd hbc hnota.2

/-- Witness for the amended C1 theorem at a concrete queue. -/
theorem C1_drain_amended_witness : msgDemoW.to_agent = "writer" :=
  C1_drain_amended.2 [msgDemoW] "searcher" "writer" msgDemoW (by decide)

/-! ### Token estimate (claim C5) -/

/-- Claim C5 (as stated, refuted): the token estimate is claimed to be
`floor(0.5*cjk + 0.25*other)`; on the string `"中aa"` (1 CJK character, 2
others) the code computes `1 // 2 + 2 // 4 = 0` while the claimed formula
gives `floor(0.5 + 0.5) = 1`. -/
theorem C5_counterexample :
    (estimate_tokens "中aa" : ℤ) ≠ spec_estimate_tokens "中aa" := by
  have h1 : estimate_tokens "中aa" = 0 := by decide
  have hl : ("中aa".data.filter isChineseChar).length = 1 := by decide
  have hl2 : "中aa".data.length = 3 := by decide
  have h2 : spec_estimate_tokens "中aa" = 1 := by
    simp only [spec_estimate_tokens, hl, hl2]
    norm_num
  rw [h1, h2]
  decide

/-- Claim C5 (amended): the token estimate is the *sum of floors*
`floor(cjk/2) + floor(other/4)`, not the floor of the sum. -/
theorem C5_amended (s : String) :
    (estimate_tokens s : ℤ) =
      ⌊(((s.data.filter isChineseChar).length : ℚ)) / 2⌋ +
        ⌊((s.data.length - (s.data.filter isChineseChar).length : ℕ) : ℚ) / 4⌋ := by
  unfold estimate_tokens
  rw [show ((2 : ℚ)) = ((2 : ℕ) : ℚ) by norm_num,
    show ((4 : ℚ)) = ((4 : ℕ) : ℚ) by norm_num,
    Rat.floor_natCast_div_natCast, Rat.floor_natCast_div_natCast]
  push_cast
  ring

/-! ### Compressed-list shape (claim C7) -/

theorem insertDesc_length (lt : Val → Val → Bool) (x : Val) (l : List Val) :
    (insertDesc lt x l).length = l.length + 1 := by
  induction l with
  | nil => rfl
  | cons y ys ih =>
    simp only [insertDesc]
    split <;> simp [ih]

theorem sortByDesc_length (lt : Val → Val → Bool) (l : List Val) :
    (sortByDesc lt l).length = l.length := by
  induction l with
  | nil => rfl
  | cons x xs ih => simp [sortByDesc, insertDesc_length, ih]

/-- Claim C7 (as stated, refuted): the compressed length is claimed to be
`max(1, round(len*ratio))`; the code truncates with `int(...)` instead. On
a plain 3-element list with ratio 0.9 the code keeps
`max(1, int(2.7)) = 2` elements while the claimed formula gives
`max(1, round(2.7)) = 3`. -/
theorem C7_counterexample :
    ((_compress_list [Val.num 1, Val.num 2, Val.num 3] (9 / 10) "notes").length : ℤ)
      ≠ spec_compressed_len 3 (9 / 10) := by
  have hf : (⌊(27 / 10 : ℚ)⌋ : ℤ) = 2 := by
    rw [Int.floor_eq_iff]
    norm_num
  have h1 : pyInt (27 / 10 : ℚ) = 2 := by
    simp only [pyInt]
    rw [if_pos (by norm_num)]
    exact hf
  have h2 : spec_compressed_len 3 (9 / 10) = 3 := by
    simp only [spec_compressed_len, pyRound,
      show (((3 : ℕ) : ℚ) * (9 / 10)) = 27 / 10 by norm_num, hf]
    norm_num
  have h3 : (_compress_list [Val.num 1, Val.num 2, Val.num 3] (9 / 10) "notes").length = 2 := by
    simp only [_compress_list]
    rw [if_neg (by decide), if_neg (by decide)]
    norm_num [h1]
    decide
  rw [h3, h2]
  decide

/-- Sanity check on the reviewer-relevant comparison semantics: a boolean
`confidence` of `True` is the Python number 1, which is NOT below 0.8, so
on `[{"confidence": True}, {"confidence": 0.8}]` at ratio 0.9 the code
keeps the `True` element (keep count `max(1, int(1.8)) = 1`, and the
stable descending sort leaves the `True` element first). -/
theorem compress_bool_confidence_demo :
    _compress_list
        [Val.dict [("confidence", Val.bool true)],
          Val.dict [("confidence", Val.num (4 / 5))]] (9 / 10) "insights" =
      [Val.dict [("confidence", Val.bool true)]] := by
  have hlt : confLt (Val.dict [("confidence", Val.bool true)])
      (Val.dict [("confidence", Val.num (4 / 5))]) = false := by
    simp only [confLt, pySortKey, getKey, sortKeyLt]
    norm_num
  have h1 : pyInt (9 / 5 : ℚ) = 1 := by
    simp only [pyInt]
    rw [if_pos (by norm_num), Int.floor_eq_iff]
    norm_num
  simp only [_compress_list]
  rw [if_pos (by decide)]
  norm_num [sortByDesc, insertDesc, hlt, h1]

/-- Claim C7 (amended): for a non-empty, non-preserved list field the
compressed list is the first `max(1, int(len*ratio))` elements (so at most
`len`) of the importance-sorted list — the stable sort is by the
`confidence` sort key descending for `verified_facts`/`insights`/
`key_facts` lists, by the `relevance_score` sort key descending for
`source_references`, and the original order otherwise; the truncation uses
Python `int` (truncation toward zero), not `round`. Sort keys follow
Python comparison: booleans count as the numbers 1 and 0, numeric keys
compare numerically, string keys lexicographically. The `sortable`
hypotheses on the two sorted branches delimit the inputs on which
CPython's `sorted` completes with these comparisons (all keys numeric, or
all keys strings); outside them it raises `TypeError` on the first
undefined comparison — caught by `_compress_context_for_agent`, which
falls back to the uncompressed context — or, for exotic keys that Python
does order (e.g. all-list keys), sorts by an order this model does not
commit to. -/
theorem C7_amended (data : List Val) (r : ℚ) (key_name : String)
    (hne : data ≠ [])
    (hconf : (key_name = "verified_facts" ∨ key_name = "insights" ∨
      key_name = "key_facts") → sortable "confidence" data = true)
    (hsrc : key_name = "source_references" →
      sortable "relevance_score" data = true) :
    _compress_list data r key_name =
      (if key_name = "verified_facts" ∨ key_name = "insights" ∨
          key_name = "key_facts" then sortByDesc confLt data
       else if key_name = "source_references" then
         sortByDesc relLt data
       else data).take (max 1 (pyInt ((data.length : ℚ) * r)).toNat) ∧
    (_compress_list data r key_name).length =
      min (max 1 (pyInt ((data.length : ℚ) * r)).toNat) data.length := by
  match data, hne with
  | x :: xs, _ =>
    constructor
    · simp only [_compress_list]
      split
      · rfl
      · split <;> rfl
    · simp only [_compress_list]
      split
      · simp [List.length_take, sortByDesc_length]
      · split <;> simp [List.length_take, sortByDesc_length]

/-- Witness for the amended C7 theorem at the boolean/float confidence
list from the demo above: both `sortable` hypotheses hold (all keys
numeric — `True` is the number 1), and the compressed length is
`min(max(1, int(2 * 0.9)), 2) = 1`. -/
theorem C7_amended_witness :
    (_compress_list
        [Val.dict [("confidence", Val.bool true)],
          Val.dict [("confidence", Val.num (4 / 5))]] (9 / 10) "insights").length =
      min (max 1 (pyInt ((([Val.dict [("confidence", Val.bool true)],
          Val.dict [("confidence", Val.num (4 / 5))]] : List Val).length : ℚ) *
          (9 / 10))).toNat)
        ([Val.dict [("confidence", Val.bool true)],
          Val.dict [("confidence", Val.num (4 / 5))]] : List Val).length :=
  (C7_amended
    [Val.dict [("confidence", Val.bool true)],
      Val.dict [("confidence", Val.num (4 / 5))]] (9 / 10) "insights"
    (by decide) (fun _ => by decide) (by decide)).2

/-! ### Unknown and method-named patch keys (claim C10) -/

/-- Claim C10 (as stated, refuted): a patch key that does not name a field
of the core context is claimed to be silently ignored with no exception.
The key `"to_dict"` names no field, yet it passes the `hasattr` guard
(it names a method), is stored on the instance, and the same
`update_core_context` call then raises a `TypeError` when it recomputes
the hash through the shadowed `to_dict`. -/
theorem C10_counterexample :
    update_core_context coreDemo [] (.dict [("to_dict", .str "x")]) =
      .error .typeErr := rfl

/-- Claim C10 (amended): a patch key that names neither a dataclass field
nor an attribute of the `CoreContext` class is silently ignored: no
exception, no field change, nothing stored, no history entry. The
modelled attribute universe is the fields plus the three defined methods;
CPython additionally inherits dunder attributes, so keys starting with
`__` are excluded by hypothesis. (Keys naming a class method do raise,
per the counterexample.) -/
theorem C10_unknown_keys_ignored (c : CoreContext) (history : List HistEntry)
    (patch : List (String × Val)) (hs : c.shadows = [])
    (h : ∀ kv ∈ patch, kv.1 ∉ core_field_names ∧ kv.1 ∉ core_method_names ∧
      kv.1.data.take 2 ≠ ['_', '_']) :
    update_core_context c history (.dict patch) = .ok (c, history) := by
  have hfold : patch.foldl
      (fun acc kv => if core_hasattr kv.1 then acc.setAttr kv.1 kv.2 else acc)
      c = c := by
    induction patch with
    | nil => rfl
    | cons kv rest ih =>
      have h1 := h kv (by simp)
      have hna : core_hasattr kv.1 = false := by
        simp [core_hasattr, h1.1, h1.2.1]
      simp only [List.foldl_cons, hna, Bool.false_eq_true, if_false]
      exact ih (fun x hx => h x (by simp [hx]))
  simp [update_core_context, CoreContext.get_hash, CoreContext.to_dict, hs,
    hfold, getKey]

/-- Witness for the amended C10 theorem at a concrete unknown key. -/
theorem C10_unknown_keys_ignored_witness :
    update_core_context coreDemo [] (.dict [("unknown_field", .num 1)]) =
      .ok (coreDemo, []) :=
  C10_unknown_keys_ignored coreDemo [] [("unknown_field", .num 1)] rfl
    (by decide)

/-! ### Idempotent core update (claim C9) -/

theorem CoreContext.setAttr_self (c : CoreContext) (k : String) (v : Val)
    (h : c.getField k = some v) : c.setAttr k v = c := by
  unfold CoreContext.getField at h
  unfold CoreContext.setAttr
  split_ifs at h ⊢ <;> (try cases h) <;> rfl

/-- Claim C9 (confirmed): `update_core_context` with a patch whose entries
all equal the current field values returns the state unchanged — in
particular the content hash is unchanged and nothing is appended to the
change history. -/
theorem C9_identical_patch_noop (c : CoreContext) (history : List HistEntry)
    (patch : List (String × Val)) (hs : c.shadows = [])
    (h : ∀ kv ∈ patch, c.getField kv.1 = some kv.2) :
    update_core_context c history (.dict patch) = .ok (c, history) := by
  have hfold : patch.foldl
      (fun acc kv => if core_hasattr kv.1 then acc.setAttr kv.1 kv.2 else acc)
      c = c := by
    induction patch with
    | nil => rfl
    | cons kv rest ih =>
      have h1 := h kv (by simp)
      have hstep : (if core_hasattr kv.1 then c.setAttr kv.1 kv.2 else c) = c := by
        split
        · exact CoreContext.setAttr_self c kv.1 kv.2 h1
        · rfl
      simp only [List.foldl_cons, hstep]
      exact ih (fun x hx => h x (by simp [hx]))
  simp [update_core_context, CoreContext.get_hash, CoreContext.to_dict, hs,
    hfold, getKey]

/-- Witness for C9 at a concrete state and identical patch. -/
theorem C9_identical_patch_noop_witness :
    update_core_context coreDemo []
      (.dict [("query", .str "q"), ("current_phase", .str "pending")]) =
      .ok (coreDemo, []) :=
  C9_identical_patch_noop coreDemo []
    [("query", .str "q"), ("current_phase", .str "pending")] rfl (by decide)

/-! ### Malformed worker results (claim C4) -/

/-- Claim C4 (the code violates it): `sync_context_after_agent` is claimed
never to raise, treating missing fields as no change — but a knowledge-node
entry without a `"content"` key makes `node_data["content"]` raise
`KeyError("content")`. -/
theorem C4_sync_raises_on_missing_content :
    sync_context_after_agent orchDemo "writer" badResult "t" =
      .error (.keyErr "content") := rfl

/-! ### Compression idempotence (claim C2) -/

theorem mem_insertDesc {lt : Val → Val → Bool} {x a : Val} {l : List Val} :
    a ∈ insertDesc lt x l ↔ a = x ∨ a ∈ l := by
  induction l with
  | nil => simp [insertDesc]
  | cons y ys ih =>
    simp only [insertDesc]
    split
    · simp only [List.mem_cons, ih]
      tauto
    · simp only [List.mem_cons]

theorem sortKeyLt_asymm (a b : SortKey) (h : sortKeyLt a b = true) :
    sortKeyLt b a = false := by
  cases a with
  | num q =>
    cases b with
    | num q' =>
      simp only [sortKeyLt, decide_eq_true_eq] at h
      simp only [sortKeyLt, decide_eq_false_iff_not]
      exact lt_asymm h
    | str s => simp [sortKeyLt] at h
    | other v => simp [sortKeyLt] at h
  | str s =>
    cases b with
    | num q => simp [sortKeyLt] at h
    | str s' =>
      simp only [sortKeyLt, decide_eq_true_eq] at h
      simp only [sortKeyLt, decide_eq_false_iff_not]
      exact lt_asymm h
    | other v => simp [sortKeyLt] at h
  | other v => cases b <;> simp [sortKeyLt] at h

theorem confLt_asymm (a b : Val) (h : confLt a b = true) :
    confLt b a = false := by
  simp only [confLt] at h ⊢
  exact sortKeyLt_asymm _ _ h

theorem relLt_asymm (a b : Val) (h : relLt a b = true) :
    relLt b a = false := by
  simp only [relLt] at h ⊢
  exact sortKeyLt_asymm _ _ h

theorem chain_insertDesc (lt : Val → Val → Bool)
    (hasym : ∀ a b, lt a b = true → lt b a = false) (x : Val) (l : List Val)
    (h : l.Chain' (fun a b => lt a b = false)) :
    (insertDesc lt x l).Chain' (fun a b => lt a b = false) := by
  induction l with
  | nil => simp [insertDesc]
  | cons y ys ih =>
    simp only [insertDesc]
    split
    · rename_i hxy
      rw [List.chain'_cons']
      refine ⟨?_, ih h.tail⟩
      intro z hz
      cases ys with
      | nil =>
        simp only [insertDesc, Option.mem_def, List.head?] at hz
        cases hz
        exact hasym x y hxy
      | cons w ws =>
        simp only [insertDesc] at hz
        by_cases hxw : lt x w = true
        · rw [if_pos hxw] at hz
          simp only [Option.mem_def, List.head?] at hz
          cases hz
          exact (List.chain'_cons.mp h).1
        · rw [if_neg hxw] at hz
          simp only [Option.mem_def, List.head?] at hz
          cases hz
          exact hasym x y hxy
    · rename_i hxy
      rw [List.chain'_cons]
      exact ⟨by simpa using hxy, h⟩

theorem chain_sortByDesc (lt : Val → Val → Bool)
    (hasym : ∀ a b, lt a b = true → lt b a = false) (l : List Val) :
    (sortByDesc lt l).Chain' (fun a b => lt a b = false) := by
  induction l with
  | nil => simp [sortByDesc]
  | cons x xs ih => exact chain_insertDesc lt hasym x _ ih

theorem sortByDesc_of_chain (lt : Val → Val → Bool) (l : List Val)
    (h : l.Chain' (fun a b => lt a b = false)) : sortByDesc lt l = l := by
  induction l with
  | nil => rfl
  | cons x xs ih =>
    simp only [sortByDesc, ih h.tail]
    cases xs with
    | nil => rfl
    | cons y ys =>
      simp only [insertDesc]
      rw [if_neg]
      simp [(List.chain'_cons.mp h).1]

theorem sortByDesc_idem (lt : Val → Val → Bool)
    (hasym : ∀ a b, lt a b = true → lt b a = false) (l : List Val) :
    sortByDesc lt (sortByDesc lt l) = sortByDesc lt l :=
  sortByDesc_of_chain lt _ (chain_sortByDesc lt hasym l)

theorem sortByDesc_confLt_idem (l : List Val) :
    sortByDesc confLt (sortByDesc confLt l) = sortByDesc confLt l :=
  sortByDesc_idem confLt confLt_asymm l

theorem sortByDesc_relLt_idem (l : List Val) :
    sortByDesc relLt (sortByDesc relLt l) = sortByDesc relLt l :=
  sortByDesc_idem relLt relLt_asymm l

theorem pyInt_natCast (n : ℕ) : pyInt ((n : ℚ)) = n := by
  simp [pyInt, Int.floor_natCast]

/-- At ratio 1 the compressed list is just the (possibly sorted) list. -/
theorem compress_list_one_eq (xs : List Val) (k : String) :
    _compress_list xs 1 k =
      if k = "verified_facts" ∨ k = "insights" ∨ k = "key_facts" then
        sortByDesc confLt xs
      else if k = "source_references" then sortByDesc relLt xs
      else xs := by
  cases xs with
  | nil => split <;> (try split) <;> simp [_compress_list, sortByDesc]
  | cons x xs' =>
    have hkeep : max 1 (pyInt (((x :: xs').length : ℚ) * 1)).toNat =
        (x :: xs').length := by
      rw [mul_one, pyInt_natCast, Int.toNat_natCast]
      simp
    simp only [_compress_list, hkeep]
    split
    · rw [← sortByDesc_length confLt (x :: xs'), List.take_length]
    · split
      · rw [← sortByDesc_length relLt (x :: xs'), List.take_length]
      · exact List.take_length _

theorem compress_list_one_idem (xs : List Val) (k : String) :
    _compress_list (_compress_list xs 1 k) 1 k = _compress_list xs 1 k := by
  rw [compress_list_one_eq, compress_list_one_eq]
  by_cases h1 : (k = "verified_facts" ∨ k = "insights" ∨ k = "key_facts")
  · simp [h1, sortByDesc_confLt_idem]
  · by_cases h2 : k = "source_references"
    · simp [h1, h2, sortByDesc_relLt_idem]
    · simp [h1, h2]

theorem compressEntry_of_mem (v : Val) (r : ℚ) (pk : List String)
    (k : String) (hk : k ∈ pk) : compressEntry v r pk k = v := by
  cases v <;> simp [compressEntry, hk]

theorem compressEntry_str_one (s : String) (pk : List String) (k : String)
    (hk : k ∉ pk) : compressEntry (.str s) 1 pk k = .str s := by
  simp only [compressEntry, if_neg hk]
  split
  · simp [mul_one, pyInt_natCast]
  · rfl

mutual

theorem compressEntry_one_idem (v : Val) (pk : List String) (k : String) :
    compressEntry (compressEntry v 1 pk k) 1 pk k = compressEntry v 1 pk k := by
  by_cases hk : k ∈ pk
  · rw [compressEntry_of_mem _ _ _ _ hk, compressEntry_of_mem _ _ _ _ hk]
  · cases v with
    | list xs =>
      simp only [compressEntry, if_neg hk]
      rw [compress_list_one_idem]
    | dict fs =>
      simp only [compressEntry, if_neg hk]
      rw [compress_dict_one_idem fs pk]
    | str s =>
      rw [compressEntry_str_one s pk k hk, compressEntry_str_one s pk k hk]
    | none => simp [compressEntry, hk]
    | bool b => simp [compressEntry, hk]
    | num q => simp [compressEntry, hk]

theorem compress_dict_one_idem (d : List (String × Val)) (pk : List String) :
    _compress_dict (_compress_dict d 1 pk) 1 pk = _compress_dict d 1 pk := by
  match d with
  | [] => rfl
  | (k, v) :: rest =>
    simp only [_compress_dict]
    rw [compressEntry_one_idem v pk k, compress_dict_one_idem rest pk]

end

/-- Claim C2 (as stated, refuted): re-applying compression with the same
ratio is claimed to change nothing. With ratio 0.6 and a plain 10-element
list, the first application keeps `int(10*0.6) = 6` elements and the
second keeps `int(6*0.6) = 3`: there is no floor below which lists stop
shrinking. -/
theorem C2_counterexample :
    _compress_dict
        (_compress_dict
          [("a", .list [Val.num 1, Val.num 2, Val.num 3, Val.num 4, Val.num 5,
            Val.num 6, Val.num 7, Val.num 8, Val.num 9, Val.num 10])]
          (3 / 5) [])
        (3 / 5) [] ≠
      _compress_dict
        [("a", .list [Val.num 1, Val.num 2, Val.num 3, Val.num 4, Val.num 5,
          Val.num 6, Val.num 7, Val.num 8, Val.num 9, Val.num 10])]
        (3 / 5) [] := by
  have h6 : pyInt (6 : ℚ) = 6 := by
    rw [show ((6 : ℚ)) = ((6 : ℕ) : ℚ) by norm_num, pyInt_natCast]
    norm_num
  have h18 : pyInt (18 / 5 : ℚ) = 3 := by
    simp only [pyInt]
    rw [if_pos (by norm_num), Int.floor_eq_iff]
    norm_num
  have hfirst :
      _compress_dict
        [("a", .list [Val.num 1, Val.num 2, Val.num 3, Val.num 4, Val.num 5,
          Val.num 6, Val.num 7, Val.num 8, Val.num 9, Val.num 10])]
        (3 / 5) [] =
      [("a", .list [Val.num 1, Val.num 2, Val.num 3, Val.num 4, Val.num 5,
        Val.num 6])] := by
    simp only [_compress_dict, compressEntry, _compress_list]
    norm_num [h6]
    decide
  have hsecond :
      _compress_dict
        [("a", .list [Val.num 1, Val.num 2, Val.num 3, Val.num 4, Val.num 5,
          Val.num 6])] (3 / 5) [] =
      [("a", .list [Val.num 1, Val.num 2, Val.num 3])] := by
    simp only [_compress_dict, compressEntry, _compress_list]
    norm_num [h18]
    decide
  rw [hfirst, hsecond]
  simp

/-- Claim C2 (amended): compression is idempotent only in the no-shrink
case `ratio = 1.0` (reached when the current estimate does not exceed the
target): for every bundle and preserve-set,
`_compress_dict(_compress_dict(b, 1.0), 1.0) = _compress_dict(b, 1.0)`.
For any ratio below 1 a second application shrinks non-preserved lists and
long strings further (see the counterexample). -/
theorem C2_idempotent_at_ratio_one (d : List (String × Val))
    (pk : List String) :
    _compress_dict (_compress_dict d 1 pk) 1 pk = _compress_dict d 1 pk :=
  compress_dict_one_idem d pk

/-! ### Preserve-set fields under compression (claim C6) -/

theorem getKey_compress (fs : List (String × Val)) (r : ℚ)
    (pk : List String) (s : String) :
    getKey (_compress_dict fs r pk) s =
      (getKey fs s).map (fun v => compressEntry v r pk s) := by
  induction fs with
  | nil => rfl
  | cons kv rest ih =>
    obtain ⟨k, v⟩ := kv
    simp only [_compress_dict, getKey]
    by_cases h : k = s
    · subst h
      simp
    · simp [h, ih]

theorem getPath_cons_str (s : String) (e : PathElem) (rest : List PathElem) :
    getPath (Val.str s) (e :: rest) = Option.none := by
  cases e <;> rfl

theorem compress_preserves_key_paths (p : List PathElem) (hp : keysOnly p)
    (fs : List (String × Val)) (r : ℚ) (pk : List String) (k : String)
    (hk : k ∈ pk) :
    getPath (.dict (_compress_dict fs r pk)) (p ++ [.key k]) =
      getPath (.dict fs) (p ++ [.key k]) := by
  induction p generalizing fs with
  | nil =>
    simp only [List.nil_append, getPath, getKey_compress]
    cases h : getKey fs k with
    | none => rfl
    | some v => simp [getPath, compressEntry_of_mem v r pk k hk]
  | cons e p' ih =>
    obtain ⟨t, rfl⟩ := hp e (by simp)
    have hp' : keysOnly p' := fun x hx => hp x (by simp [hx])
    simp only [List.cons_append, getPath, getKey_compress]
    cases h : getKey fs t with
    | none => rfl
    | some v =>
      simp only [Option.map_some']
      by_cases ht : t ∈ pk
      · rw [compressEntry_of_mem v r pk t ht]
      · cases v with
        | dict gs =>
          simp only [compressEntry, if_neg ht]
          exact ih hp' gs
        | list xs =>
          simp only [compressEntry, if_neg ht]
          cases p' with
          | nil => rfl
          | cons e2 p'' =>
            obtain ⟨t2, rfl⟩ := hp' e2 (by simp)
            rfl
        | str s2 =>
          simp only [compressEntry, if_neg ht]
          obtain ⟨e0, rest0, hsplit⟩ :
              ∃ e0 rest0, p'.append [PathElem.key k] = e0 :: rest0 := by
            cases p' <;> exact ⟨_, _, rfl⟩
          rw [hsplit]
          split <;> (try split) <;> simp only [getPath_cons_str]
        | none => simp [compressEntry, if_neg ht]
        | bool b => simp [compressEntry, if_neg ht]
        | num q => simp [compressEntry, if_neg ht]

/-- Claim C6 (as stated, refuted): preserve-set fields are claimed to be
byte-identical at *every* nesting level where they occur. With preserve-set
`{"insights"}` and ratio 1/2, the non-preserved list under `"a"` is
truncated to one element, and the `"insights"` occurrence inside the
dropped second element disappears from the bundle instead of surviving
byte-identically. -/
theorem C6_counterexample :
    getPath (.dict bundleDemo) [.key "a", .idx 1, .key "insights"] =
      some (.str "y") ∧
    getPath (.dict (_compress_dict bundleDemo (1 / 2) ["insights"]))
      [.key "a", .idx 1, .key "insights"] = Option.none := by
  have h1 : pyInt ((2 : ℚ) * (1 / 2)) = 1 := by
    rw [show ((2 : ℚ) * (1 / 2)) = ((1 : ℕ) : ℚ) by norm_num, pyInt_natCast]
    norm_num
  constructor
  · rfl
  · have hc : _compress_dict bundleDemo (1 / 2) ["insights"] =
        [("a", .list [.dict [("insights", .str "x")]])] := by
      simp only [bundleDemo, _compress_dict, compressEntry, _compress_list]
      norm_num [h1]
      decide
    rw [hc]
    rfl

/-- Claim C6 (amended): a preserve-set field passes through byte-identical
at every nesting level the dict recursion reaches — along every path made
of dict keys. (An occurrence nested inside a non-preserved *list* can be
dropped wholesale with its containing element, per the counterexample; it
is never altered in place.) -/
theorem C6_preserved_on_dict_paths (p : List PathElem) (hp : keysOnly p)
    (fs : List (String × Val)) (r : ℚ) (pk : List String) (k : String)
    (hk : k ∈ pk) :
    getPath (.dict (_compress_dict fs r pk)) (p ++ [.key k]) =
      getPath (.dict fs) (p ++ [.key k]) :=
  compress_preserves_key_paths p hp fs r pk k hk

/-- Witness for the amended C6 theorem: a preserved field one dict level
down survives compression byte-identically. -/
theorem C6_preserved_on_dict_paths_witness :
    getPath (.dict (_compress_dict
        [("b", .dict [("insights", .str "x"), ("other", .str "y")])]
        (1 / 2) ["insights"]))
      ([PathElem.key "b"] ++ [PathElem.key "insights"]) =
    getPath (.dict [("b", .dict [("insights", .str "x"), ("other", .str "y")])])
      ([PathElem.key "b"] ++ [PathElem.key "insights"]) :=
  C6_preserved_on_dict_paths [PathElem.key "b"]
    (by
      intro e he
      rw [List.mem_singleton] at he
      exact ⟨"b", he⟩)
    [("b", .dict [("insights", .str "x"), ("other", .str "y")])]
    (1 / 2) ["insights"] "insights" (by decide)

/-! ### Verification-status invariant (claim C3) -/

theorem getNode_mem {nodes : List (String × KnowledgeNode)} {k : String}
    {n : KnowledgeNode} (h : getNode nodes k = some n) : (k, n) ∈ nodes := by
  induction nodes with
  | nil => exact absurd h (by simp [getNode])
  | cons kv rest ih =>
    obtain ⟨k2, n2⟩ := kv
    simp only [getNode] at h
    split at h
    · rename_i hk
      subst hk
      simp only [Option.some.injEq] at h
      subst h
      simp
    · exact List.mem_cons_of_mem _ (ih h)

theorem mem_setNode {nodes : List (String × KnowledgeNode)} {k : String}
    {n : KnowledgeNode} {p : String × KnowledgeNode}
    (hp : p ∈ setNode nodes k n) : p = (k, n) ∨ p ∈ nodes := by
  induction nodes with
  | nil =>
    simp only [setNode, List.mem_singleton] at hp
    exact Or.inl hp
  | cons kv rest ih =>
    obtain ⟨k2, n2⟩ := kv
    simp only [setNode] at hp
    split at hp
    · rw [List.mem_cons] at hp
      rcases hp with hp | hp
      · exact Or.inl hp
      · exact Or.inr (by simp [hp])
    · rw [List.mem_cons] at hp
      rcases hp with hp | hp
      · exact Or.inr (by simp [hp])
      · rcases ih hp with hp2 | hp2
        · exact Or.inl hp2
        · exact Or.inr (by simp [hp2])

/-- A node that itself satisfies the settled condition can be written into
the store without breaking the invariant. -/
theorem settled_setNode {kg : KnowledgeGraphManager} {id : String}
    {n : KnowledgeNode} (hs : count_ge2_implies_settled kg)
    (hn : ∀ q : ℚ, n.verification_count = .num q → 2 ≤ q →
      n.verification_status = .str "verified" ∨
        n.verification_status = .str "conflicting") :
    count_ge2_implies_settled
      { kg with nodes := setNode kg.nodes id n } := by
  intro p hp q hq hge
  rcases mem_setNode hp with rfl | hp2
  · exact hn q hq hge
  · exact hs p hp2 q hq hge

theorem setAttr_count (n : KnowledgeNode) (k : String) (v : Val)
    (h1 : k ≠ "verification_count") :
    (n.setAttr k v).verification_count = n.verification_count := by
  by_cases hc0 : k = "id"
  · simp [KnowledgeNode.setAttr, hc0]
  by_cases hc1 : k = "node_type"
  · simp [KnowledgeNode.setAttr, hc0, hc1]
  by_cases hc2 : k = "content"
  · simp [KnowledgeNode.setAttr, hc0, hc1, hc2]
  by_cases hc3 : k = "source_ids"
  · simp [KnowledgeNode.setAttr, hc0, hc1, hc2, hc3]
  by_cases hc4 : k = "created_by_agent"
  · simp [KnowledgeNode.setAttr, hc0, hc1, hc2, hc3, hc4]
  by_cases hc5 : k = "confidence_score"
  · simp [KnowledgeNode.setAttr, hc0, hc1, hc2, hc3, hc4, hc5]
  by_cases hc6 : k = "verification_status"
  · simp [KnowledgeNode.setAttr, hc0, hc1, hc2, hc3, hc4, hc5, hc6]
  by_cases hc7 : k = "verification_count"
  · exact absurd hc7 h1
  by_cases hc8 : k = "related_node_ids"
  · simp [KnowledgeNode.setAttr, hc0, hc1, hc2, hc3, hc4, hc5, hc6, hc7, hc8]
  by_cases hc9 : k = "metadata"
  · simp [KnowledgeNode.setAttr, hc0, hc1, hc2, hc3, hc4, hc5, hc6, hc7, hc8, hc9]
  by_cases hc10 : k = "created_at"
  · simp [KnowledgeNode.setAttr, hc0, hc1, hc2, hc3, hc4, hc5, hc6, hc7, hc8, hc9, hc10]
  by_cases hc11 : k = "updated_at"
  · simp [KnowledgeNode.setAttr, hc0, hc1, hc2, hc3, hc4, hc5, hc6, hc7, hc8, hc9, hc10, hc11]
  by_cases hc12 : k = "version"
  · simp [KnowledgeNode.setAttr, hc0, hc1, hc2, hc3, hc4, hc5, hc6, hc7, hc8, hc9, hc10, hc11, hc12]
  by_cases hm : k ∈ node_method_names
  · simp [KnowledgeNode.setAttr, hc0, hc1, hc2, hc3, hc4, hc5, hc6, hc7, hc8, hc9, hc10, hc11, hc12, hm]
  · simp [KnowledgeNode.setAttr, hc0, hc1, hc2, hc3, hc4, hc5, hc6, hc7, hc8, hc9, hc10, hc11, hc12, hm]

theorem setAttr_status (n : KnowledgeNode) (k : String) (v : Val)
    (h1 : k ≠ "verification_status") :
    (n.setAttr k v).verification_status = n.verification_status := by
  by_cases hc0 : k = "id"
  · simp [KnowledgeNode.setAttr, hc0]
  by_cases hc1 : k = "node_type"
  · simp [KnowledgeNode.setAttr, hc0, hc1]
  by_cases hc2 : k = "content"
  · simp [KnowledgeNode.setAttr, hc0, hc1, hc2]
  by_cases hc3 : k = "source_ids"
  · simp [KnowledgeNode.setAttr, hc0, hc1, hc2, hc3]
  by_cases hc4 : k = "created_by_agent"
  · simp [KnowledgeNode.setAttr, hc0, hc1, hc2, hc3, hc4]
  by_cases hc5 : k = "confidence_score"
  · simp [KnowledgeNode.setAttr, hc0, hc1, hc2, hc3, hc4, hc5]
  by_cases hc6 : k = "verification_status"
  · exact absurd hc6 h1
  by_cases hc7 : k = "verification_count"
  · simp [KnowledgeNode.setAttr, hc0, hc1, hc2, hc3, hc4, hc5, hc6, hc7]
  by_cases hc8 : k = "related_node_ids"
  · simp [KnowledgeNode.setAttr, hc0, hc1, hc2, hc3, hc4, hc5, hc6, hc7, hc8]
  by_cases hc9 : k = "metadata"
  · simp [KnowledgeNode.setAttr, hc0, hc1, hc2, hc3, hc4, hc5, hc6, hc7, hc8, hc9]
  by_cases hc10 : k = "created_at"
  · simp [KnowledgeNode.setAttr, hc0, hc1, hc2, hc3, hc4, hc5, hc6, hc7, hc8, hc9, hc10]
  by_cases hc11 : k = "updated_at"
  · simp [KnowledgeNode.setAttr, hc0, hc1, hc2, hc3, hc4, hc5, hc6, hc7, hc8, hc9, hc10, hc11]
  by_cases hc12 : k = "version"
  · simp [KnowledgeNode.setAttr, hc0, hc1, hc2, hc3, hc4, hc5, hc6, hc7, hc8, hc9, hc10, hc11, hc12]
  by_cases hm : k ∈ node_method_names
  · simp [KnowledgeNode.setAttr, hc0, hc1, hc2, hc3, hc4, hc5, hc6, hc7, hc8, hc9, hc10, hc11, hc12, hm]
  · simp [KnowledgeNode.setAttr, hc0, hc1, hc2, hc3, hc4, hc5, hc6, hc7, hc8, hc9, hc10, hc11, hc12, hm]

theorem benign_fold_preserves (updates : List (String × Val))
    (hb : benign_patch updates) (n : KnowledgeNode) :
    (updates.foldl
      (fun acc kv => if node_hasattr kv.1 then acc.setAttr kv.1 kv.2 else acc)
      n).verification_count = n.verification_count ∧
    (updates.foldl
      (fun acc kv => if node_hasattr kv.1 then acc.setAttr kv.1 kv.2 else acc)
      n).verification_status = n.verification_status := by
  induction updates generalizing n with
  | nil => exact ⟨rfl, rfl⟩
  | cons kv rest ih =>
    have hkv := hb kv (by simp)
    have hstep :
        ((if node_hasattr kv.1 then n.setAttr kv.1 kv.2 else n)).verification_count
          = n.verification_count ∧
        ((if node_hasattr kv.1 then n.setAttr kv.1 kv.2 else n)).verification_status
          = n.verification_status := by
      split
      · exact ⟨setAttr_count n kv.1 kv.2 hkv.1, setAttr_status n kv.1 kv.2 hkv.2⟩
      · exact ⟨rfl, rfl⟩
    have hrest : benign_patch rest := fun x hx => hb x (by simp [hx])
    simp only [List.foldl_cons]
    obtain ⟨ih1, ih2⟩ := ih hrest (if node_hasattr kv.1 then n.setAttr kv.1 kv.2 else n)
    exact ⟨ih1.trans hstep.1, ih2.trans hstep.2⟩

theorem add_preserves_settled {kg kg2 : KnowledgeGraphManager}
    {n : KnowledgeNode} (node_type content source_ids created_by confidence
    related metadata : Val) (now : String)
    (h : add_node kg node_type content source_ids created_by confidence
      related metadata now = .ok (kg2, n))
    (hs : count_ge2_implies_settled kg) : count_ge2_implies_settled kg2 := by
  unfold add_node at h
  cases content with
  | str s =>
    simp only [Except.ok.injEq, Prod.mk.injEq] at h
    obtain ⟨rfl, -⟩ := h
    refine settled_setNode hs ?_
    intro q hq hge
    simp only [Val.num.injEq] at hq
    rw [← hq] at hge
    norm_num at hge
  | none => exact absurd h (by simp)
  | bool b => exact absurd h (by simp)
  | num q => exact absurd h (by simp)
  | list xs => exact absurd h (by simp)
  | dict fs => exact absurd h (by simp)

theorem verify_preserves_settled {kg kg2 : KnowledgeGraphManager} {b : Bool}
    (node_id vf now : String)
    (h : verify_node kg node_id vf now = .ok (kg2, b))
    (hs : count_ge2_implies_settled kg) : count_ge2_implies_settled kg2 := by
  unfold verify_node at h
  split at h
  · -- unknown node id: no change
    simp only [Except.ok.injEq, Prod.mk.injEq] at h
    obtain ⟨rfl, -⟩ := h
    exact hs
  · -- node found: split on the count and the `>= 2` test
    split at h
    · split at h
      · split at h
        · -- second-or-later verification: status is set to verified
          simp only [Except.ok.injEq, Prod.mk.injEq] at h
          obtain ⟨rfl, -⟩ := h
          exact settled_setNode hs (fun q hq hge => Or.inl rfl)
        · exact absurd h (by simp)
      · -- first verification: the new count is below 2
        rename_i n cnt hcnt hlt
        simp only [Except.ok.injEq, Prod.mk.injEq] at h
        obtain ⟨rfl, -⟩ := h
        refine settled_setNode hs ?_
        intro q hq hge
        simp only [Val.num.injEq] at hq
        rw [← hq] at hge
        exact absurd hge hlt
    · exact absurd h (by simp)

theorem update_preserves_settled {kg kg2 : KnowledgeGraphManager}
    {res : Option KnowledgeNode} (node_id : String)
    (updates : List (String × Val)) (now : String)
    (hb : benign_patch updates)
    (h : update_node kg node_id updates now = .ok (kg2, res))
    (hs : count_ge2_implies_settled kg) : count_ge2_implies_settled kg2 := by
  unfold update_node at h
  split at h
  · simp only [Except.ok.injEq, Prod.mk.injEq] at h
    obtain ⟨rfl, -⟩ := h
    exact hs
  · rename_i n hg
    conv at h => lhs; zeta
    split at h
    · rename_i ver hver
      simp only [Except.ok.injEq, Prod.mk.injEq] at h
      obtain ⟨rfl, -⟩ := h
      obtain ⟨hcnt, hstat⟩ := benign_fold_preserves updates hb n
      refine settled_setNode hs ?_
      intro q hq hge
      have hq2 : n.verification_count = .num q := by
        rw [← hcnt]
        exact hq
      have hstat2 := hs (node_id, n) (getNode_mem hg) q hq2 hge
      simpa [hstat] using hstat2
    · exact absurd h (by simp)

theorem conflict_preserves_settled {kg kg2 : KnowledgeGraphManager}
    (node_id other_id : String)
    (h : mark_conflicting kg node_id other_id = .ok kg2)
    (hs : count_ge2_implies_settled kg) : count_ge2_implies_settled kg2 := by
  unfold mark_conflicting at h
  split at h
  · simp only [Except.ok.injEq] at h
    rw [← h]
    exact hs
  · split at h
    · -- list-valued related ids: status becomes conflicting either way
      simp only [Except.ok.injEq] at h
      rw [← h]
      refine settled_setNode hs ?_
      intro q hq hge
      right
      split <;> rfl
    · -- dict-valued: only the key-present path returns
      split at h
      · simp only [Except.ok.injEq] at h
        rw [← h]
        exact settled_setNode hs (fun q hq hge => Or.inr rfl)
      · exact absurd h (by simp)
    · -- str-valued: only the substring path returns
      split at h
      · simp only [Except.ok.injEq] at h
        rw [← h]
        exact settled_setNode hs (fun q hq hge => Or.inr rfl)
      · exact absurd h (by simp)
    · exact absurd h (by simp)

theorem settled_of_reachSafe {kg : KnowledgeGraphManager}
    (h : KGReachSafe kg) : count_ge2_implies_settled kg := by
  induction h with
  | init t =>
    intro p hp q hq hge
    exact absurd hp (by simp [KnowledgeGraphManager.init])
  | step hr hstep ih =>
    cases hstep with
    | add nt c s cb cf rel md now h2 =>
      exact add_preserves_settled nt c s cb cf rel md now h2 ih
    | verify nid vf now h2 => exact verify_preserves_settled nid vf now h2 ih
    | update nid ups now hb h2 =>
      exact update_preserves_settled nid ups now hb h2 ih
    | conflict nid oid h2 => exact conflict_preserves_settled nid oid h2 ih

theorem add_step_demo :
    add_node (KnowledgeGraphManager.init 1) (.str "fact") (.str "alpha beta")
      .none (.str "searcher") (.num (1 / 2)) .none .none "t0" =
      .ok (kgDemo1, nodeDemo1) := rfl

theorem verify_step_demo1 :
    verify_node kgDemo1 "node_1_1" "curator" "t1" = .ok (kgDemo2, true) := by
  norm_num [verify_node, kgDemo1, kgDemo2, nodeDemo1, nodeDemo2, getNode,
    setNode]

theorem verify_step_demo2 :
    verify_node kgDemo2 "node_1_1" "reviewer" "t2" = .ok (kgDemo3, true) := by
  norm_num [verify_node, kgDemo2, kgDemo3, kgDemo1, nodeDemo2, nodeDemo3,
    nodeDemo1, getNode, setNode]

theorem conflict_step_demo :
    mark_conflicting kgDemo3 "node_1_1" "node_1_99" = .ok kgDemo4 := by
  norm_num [mark_conflicting, kgDemo3, kgDemo4, kgDemo1, nodeDemo3, nodeDemo4,
    nodeDemo2, nodeDemo1, getNode, setNode]

theorem kgDemo4_reachable : KGReach kgDemo4 :=
  KGReach.step
    (KGReach.step
      (KGReach.step (KGReach.init 1)
        (KGStep.add (Val.str "fact") (Val.str "alpha beta") Val.none
          (Val.str "searcher") (Val.num (1 / 2)) Val.none Val.none "t0"
          add_step_demo))
      (KGStep.verify "node_1_1" "curator" "t1" verify_step_demo1))
    (KGStep.verify "node_1_1" "reviewer" "t2" verify_step_demo2)
  |>.step (KGStep.conflict "node_1_1" "node_1_99" conflict_step_demo)

/-- Claim C3 (as stated, refuted): a node added, verified twice (count 2,
status verified) and then passed to `mark_conflicting` is reachable with
verification count 2 and status `conflicting`, not `verified`. -/
theorem C3_counterexample :
    ∃ kg, KGReach kg ∧ ¬ count_ge2_implies_verified kg := by
  refine ⟨kgDemo4, kgDemo4_reachable, ?_⟩
  intro hinv
  have := hinv ("node_1_1", nodeDemo4) (by simp [kgDemo4, kgDemo1]) 2 rfl
    (by norm_num)
  simp [nodeDemo4, nodeDemo3, nodeDemo2, nodeDemo1] at this

/-- Claim C3 (amended): in every state reachable by `add_node`,
`verify_node`, `mark_conflicting`, and `update_node` restricted to patches
that touch neither `verification_count` nor `verification_status`, every
node whose verification count is at least 2 has status `verified` or
`conflicting` (the original claim's `verified` alone fails because
`mark_conflicting` overrides a verified status without touching the
count). -/
theorem C3_count_ge2_settled {kg : KnowledgeGraphManager}
    (h : KGReachSafe kg) : count_ge2_implies_settled kg :=
  settled_of_reachSafe h

/-- Witness for the amended C3 theorem at a concrete reachable state. -/
theorem C3_count_ge2_settled_witness :
    count_ge2_implies_settled kgDemo4 :=
  C3_count_ge2_settled
    (KGReachSafe.step
      (KGReachSafe.step
        (KGReachSafe.step
          (KGReachSafe.step (KGReachSafe.init 1)
            (KGStepSafe.add (Val.str "fact") (Val.str "alpha beta") Val.none
              (Val.str "searcher") (Val.num (1 / 2)) Val.none Val.none "t0"
              add_step_demo))
          (KGStepSafe.verify "node_1_1" "curator" "t1" verify_step_demo1))
        (KGStepSafe.verify "node_1_1" "reviewer" "t2" verify_step_demo2))
      (KGStepSafe.conflict "node_1_1" "node_1_99" conflict_step_demo))

/-! ### Export/restore round trip (claim C8) -/

theorem enumValue_ok {v : Val} {vals : List String} {s : String}
    (h : enumValue v vals = .ok s) : v = .str s ∧ s ∈ vals := by
  unfold enumValue at h
  split at h
  · split at h
    · simp only [Except.ok.injEq] at h
      subst h
      exact ⟨rfl, by assumption⟩
    · exact absurd h (by simp)
  · exact absurd h (by simp)

theorem core_to_from {c : CoreContext} {d : List (String × Val)}
    (h : c.to_dict = .ok d) :
    CoreContext.from_dict d = .ok { c with shadows := [] } := by
  unfold CoreContext.to_dict at h
  split at h
  · exact absurd h (by simp)
  · simp only [Except.ok.injEq] at h
    subst h
    simp [CoreContext.from_dict, getKey, core_field_names]

theorem ext_to_from {ec : ExtendedContext} {d : List (String × Val)}
    (h : ec.to_dict = .ok d) :
    ExtendedContext.from_dict d = .ok { ec with shadows := [] } := by
  unfold ExtendedContext.to_dict at h
  split at h
  · exact absurd h (by simp)
  · simp only [Except.ok.injEq] at h
    subst h
    simp [ExtendedContext.from_dict, getKey, ext_field_names]

theorem node_to_from {n : KnowledgeNode} {d : List (String × Val)}
    (now : String) (h : n.to_dict = .ok d) :
    KnowledgeNode.from_dict d now = .ok { n with shadows := [] } := by
  unfold KnowledgeNode.to_dict at h
  split at h
  · exact absurd h (by simp)
  · split at h
    · exact absurd h (by simp)
    · split at h
      · exact absurd h (by simp)
      · rename_i scr1 tv htv scr2 sv hsv
        obtain ⟨hnt, hntm⟩ := enumValue_ok htv
        obtain ⟨hvs, hvsm⟩ := enumValue_ok hsv
        simp only [Except.ok.injEq] at h
        subst h
        simp [KnowledgeNode.from_dict, getKey, node_field_names, pyEnumParse,
          hntm, hvsm, hnt, hvs]

theorem mapE_node_roundtrip (now : String) :
    ∀ {nodes : List (String × KnowledgeNode)}
      {ds : List (String × List (String × Val))},
      mapE nodeToDictE nodes = .ok ds →
      mapE (nodeFromDictE now) ds =
        .ok (nodes.map (fun kv => (kv.1, { kv.2 with shadows := [] }))) := by
  intro nodes
  induction nodes with
  | nil =>
    intro ds h
    simp only [mapE, Except.ok.injEq] at h
    subst h
    rfl
  | cons kv rest ih =>
    intro ds h
    simp only [mapE] at h
    split at h
    · exact absurd h (by simp)
    · rename_i y hy
      split at h
      · exact absurd h (by simp)
      · rename_i ys hys
        simp only [Except.ok.injEq] at h
        subst h
        have hd : kv.2.to_dict = .ok y.2 ∧ y.1 = kv.1 := by
          unfold nodeToDictE at hy
          split at hy
          · exact absurd hy (by simp)
          · simp only [Except.ok.injEq] at hy
            subst hy
            exact ⟨by assumption, rfl⟩
        obtain ⟨hd2, hy1⟩ := hd
        have hfd : nodeFromDictE now y = .ok (y.1, { kv.2 with shadows := [] }) := by
          unfold nodeFromDictE
          rw [node_to_from now hd2]
        simp only [mapE, List.map_cons]
        rw [hfd, ih hys, hy1]

theorem mapE_ext_roundtrip :
    ∀ {ecs : List (String × ExtendedContext)}
      {ds : List (String × List (String × Val))},
      mapE extToDictE ecs = .ok ds →
      mapE extFromDictE ds =
        .ok (ecs.map (fun kv => (kv.1, { kv.2 with shadows := [] }))) := by
  intro ecs
  induction ecs with
  | nil =>
    intro ds h
    simp only [mapE, Except.ok.injEq] at h
    subst h
    rfl
  | cons kv rest ih =>
    intro ds h
    simp only [mapE] at h
    split at h
    · exact absurd h (by simp)
    · rename_i y hy
      split at h
      · exact absurd h (by simp)
      · rename_i ys hys
        simp only [Except.ok.injEq] at h
        subst h
        have hd : kv.2.to_dict = .ok y.2 ∧ y.1 = kv.1 := by
          unfold extToDictE at hy
          split at hy
          · exact absurd hy (by simp)
          · simp only [Except.ok.injEq] at hy
            subst hy
            exact ⟨by assumption, rfl⟩
        obtain ⟨hd2, hy1⟩ := hd
        have hfd : extFromDictE y = .ok (y.1, { kv.2 with shadows := [] }) := by
          unfold extFromDictE
          rw [ext_to_from hd2]
        simp only [mapE, List.map_cons]
        rw [hfd, ih hys, hy1]

theorem verified_count_shadow_clear (nodes : List (String × KnowledgeNode)) :
    (((nodes.map (fun kv => (kv.1, { kv.2 with shadows := ([] : List (String × Val)) }))).map
        Prod.snd).filter
      (fun n => n.verification_status = .str "verified")).length =
    ((nodes.map Prod.snd).filter
      (fun n => n.verification_status = .str "verified")).length := by
  induction nodes with
  | nil => rfl
  | cons kv rest ih =>
    simp only [List.map_cons, List.filter_cons]
    split <;> simp_all

/-- Claim C8 (confirmed): whenever `get_state_for_persistence` succeeds and
the core-context hash is computable, `restore_from_state` succeeds and
reproduces the same verified-fact count, the same total node count, and
the same core-context hash. -/
theorem C8_export_restore_roundtrip {o : ContextOrchestrator}
    (now now2 : String) {st : PersistState} {h : List (String × Val)}
    (hexp : get_state_for_persistence o now = .ok st)
    (hhash : o.core_context.get_hash = .ok h) :
    ∃ o2, restore_from_state st now2 = .ok o2 ∧
      o2.core_context.get_hash = .ok h ∧
      o2.knowledge_graph.nodes.length = o.knowledge_graph.nodes.length ∧
      (get_verified_facts o2.knowledge_graph).length =
        (get_verified_facts o.knowledge_graph).length := by
  unfold get_state_for_persistence at hexp
  split at hexp
  · exact absurd hexp (by simp)
  · rename_i core_d hcore
    split at hexp
    · exact absurd hexp (by simp)
    · rename_i exts_d hexts
      split at hexp
      · exact absurd hexp (by simp)
      · rename_i kg_d hkg
        simp only [Except.ok.injEq] at hexp
        subst hexp
        unfold KnowledgeGraphManager.to_dict at hkg
        split at hkg
        · exact absurd hkg (by simp)
        · rename_i ns hns
          simp only [Except.ok.injEq] at hkg
          subst hkg
          refine ⟨{ ContextOrchestrator.init o.task_id o.query with
            core_context := { o.core_context with shadows := [] },
            extended_contexts :=
              o.extended_contexts.map (fun kv => (kv.1, { kv.2 with shadows := [] })),
            knowledge_graph :=
              { task_id := o.knowledge_graph.task_id,
                node_counter := o.knowledge_graph.node_counter,
                nodes := o.knowledge_graph.nodes.map
                  (fun kv => (kv.1, { kv.2 with shadows := [] })) },
            summary_chain := o.summary_chain,
            global_errors := o.global_errors }, ?_, ?_, ?_, ?_⟩
          · unfold restore_from_state
            rw [core_to_from hcore, mapE_ext_roundtrip hexts]
            unfold KnowledgeGraphManager.from_dict
            rw [mapE_node_roundtrip now2 hns]
          · unfold CoreContext.get_hash at hhash ⊢
            split at hhash
            · exact absurd hhash (by simp)
            · unfold CoreContext.to_dict at hhash ⊢
              split at hhash
              · exact absurd hhash (by simp)
              · simp only [Except.ok.injEq] at hhash
                simp [getKey, hhash]
          · simp
          · simp only [get_verified_facts]
            exact verified_count_shadow_clear o.knowledge_graph.nodes

/-- Witness for C8 at a concrete (freshly initialized) orchestrator. -/
theorem C8_export_restore_roundtrip_witness :
    ∃ o2, restore_from_state stDemo "t1" = .ok o2 ∧
      o2.core_context.get_hash = .ok hashDemo ∧
      o2.knowledge_graph.nodes.length =
        orchDemo5.knowledge_graph.nodes.length ∧
      (get_verified_facts o2.knowledge_graph).length =
        (get_verified_facts orchDemo5.knowledge_graph).length :=
  C8_export_restore_roundtrip "t0" "t1" rfl rfl

end DeepResearch
